import Mathlib

/-!
Verification of the course-audit engine (src/logic/auditor.rs and the
aggregation section of src/main.rs) of the course-audit-system repository.

The Rust code is shallowly embedded: `f32` credit values become `ℚ`,
`HashSet<usize>` used-index sets become `Finset ℕ`, vectors become lists,
and each Rust loop becomes a structurally recursive function or fold.
Record indices (positions in the parsed-course list) are the unit of
consumption, exactly as in the source.
-/

namespace CourseAudit

/-! ## Data model (src/models.rs) -/

/-- A single course instance in the transcript (models.rs `Course`). -/
structure Course where
  code : String
  name : String
  credit : ℚ
  grade : String
  deriving Repr, DecidableEq

/-- A displayable audit category (models.rs `Category`). -/
structure Category where
  name : String
  required_credits : ℚ
  collected_credits : ℚ
  courses : List Course
  deriving Repr, DecidableEq

/-- A missing required course tagged with its curriculum category
(models.rs `MissingCourse`). -/
structure MissingCourse where
  category : String
  description : String
  deriving Repr, DecidableEq

/-- Final audit result (models.rs `AuditResult`). -/
structure AuditResult where
  total_credits : ℚ
  categories : List Category
  missing_subjects : List MissingCourse
  deriving Repr, DecidableEq

/-- A single General Education course (models.rs `GenEdCourse`). -/
structure GenEdCourse where
  code : String
  name : String
  credits : ℚ
  deriving Repr, DecidableEq

/-- A nested sub-group under a GenEd strand (models.rs `GenEdSubGroup`). -/
structure GenEdSubGroup where
  name : String
  required_credits : ℚ
  courses : List GenEdCourse
  deriving Repr, DecidableEq

/-- A GenEd strand which may contain direct courses or sub-groups
(models.rs `GenEdStrand`). -/
structure GenEdStrand where
  id : ℕ
  name : String
  required_credits : ℚ
  sub_groups : Option (List GenEdSubGroup)
  courses : Option (List GenEdCourse)
  selection_rule : Option String
  sequence_groups : Option (List (List String))
  deriving Repr, DecidableEq

/-- Elective sub-category within GenEd (models.rs `GenEdElectiveSubCategory`). -/
structure GenEdElectiveSubCategory where
  name : String
  required_credits : ℚ
  min_courses : ℕ
  max_courses : ℕ
  courses : List GenEdCourse
  deriving Repr, DecidableEq

/-- GenEd electives collection (models.rs `GenEdElectives`). -/
structure GenEdElectives where
  name : String
  total_required_credits : ℚ
  sub_categories : List GenEdElectiveSubCategory
  deriving Repr, DecidableEq

/-- Top-level General Education curriculum definition
(models.rs `GenEdCurriculum`). -/
structure GenEdCurriculum where
  name : String
  total_required_credits : ℚ
  strands : List GenEdStrand
  electives : GenEdElectives
  deriving Repr, DecidableEq

/-- A course that belongs to the major curriculum (models.rs `MajorCourse`). -/
structure MajorCourse where
  code : String
  name : String
  credits : ℚ
  deriving Repr, DecidableEq

/-- Cluster of courses inside a domain (models.rs `MajorCluster`). -/
structure MajorCluster where
  id : String
  name : String
  min_courses : ℕ
  description : Option String
  courses : List MajorCourse
  deriving Repr, DecidableEq

/-- Domain grouping clusters of major electives (models.rs `MajorDomain`). -/
structure MajorDomain where
  id : ℕ
  name : String
  description : Option String
  clusters : List MajorCluster
  deriving Repr, DecidableEq

/-- Basic science portion of the major (models.rs `MajorBasicScience`). -/
structure MajorBasicScience where
  name : String
  required_credits : ℚ
  courses : List MajorCourse
  deriving Repr, DecidableEq

/-- Core courses required for the major (models.rs `MajorCoreCourses`). -/
structure MajorCoreCourses where
  name : String
  required_credits : ℚ
  courses : List MajorCourse
  deriving Repr, DecidableEq

/-- Capstone options for the major (models.rs `MajorCapstone`). -/
structure MajorCapstone where
  name : String
  credits_per_option : ℚ
  options : List MajorCourse
  deriving Repr, DecidableEq

/-- Elective requirements of the major (models.rs `MajorElectives`). -/
structure MajorElectives where
  name : String
  total_required_credits : ℚ
  clusters_to_complete : ℕ
  domains : List MajorDomain
  others : List MajorCourse
  deriving Repr, DecidableEq

/-- Top-level Major curriculum definition (models.rs `MajorCurriculum`). -/
structure MajorCurriculum where
  name : String
  total_required_credits : ℚ
  basic_science : MajorBasicScience
  core_courses : MajorCoreCourses
  capstone : MajorCapstone
  electives : MajorElectives
  deriving Repr, DecidableEq

/-- Parsed course details extracted from the transcript text
(models.rs `ParsedCourse`). -/
structure ParsedCourse where
  code : String
  name : String
  grade : String
  parsed_credit : ℚ
  deriving Repr, DecidableEq

/-- Modelled from the spec: `is_passing_grade` is imported by auditor.rs from
`crate::models`, but its body is not among the repository's source files.
The spec (section 3 invariant (c) and section 9) describes it as one closed
passing/failing predicate over letter grades, evaluated once per record; we
model passing as the standard passing letter grades plus Satisfactory. -/
def is_passing_grade (grade : String) : Bool :=
  (["A", "B+", "B", "C+", "C", "D+", "D", "S"] : List String).contains grade

/-- Modelled from the spec: `free_elective_dedupe_key` is imported by
auditor.rs from `crate::models`, but its body is not among the repository's
source files. The spec (section 4.3) describes it as a normalized dedupe key
computed from (code, name); we model it as the normalized pair joined by a
separator, so that it is a function of exactly the code and the name. -/
def free_elective_dedupe_key (code name : String) : String :=
  code.trim.toUpper ++ "|" ++ name.trim.toUpper

/-! ## Auditing engine (src/logic/auditor.rs) -/

/-- Returns the lesser of the curriculum-defined credit value and the parsed
transcript value (auditor.rs `matched_course_credits`). -/
def matched_course_credits (curriculum_credits : ℚ) (parsed : ParsedCourse) : ℚ :=
  min curriculum_credits parsed.parsed_credit

/-- Modelled rendering of Rust's one-decimal float formatting used inside
missing-requirement descriptions. The exact digit string is presentation
only; no audited property depends on it. -/
def fmtDec1 (q : ℚ) : String :=
  let n : ℤ := round (q * 10)
  toString (n / 10) ++ "." ++ toString (n.natAbs % 10)

/-- Modelled rendering of Rust's default float formatting (used in the
free-elective list entries). -/
def fmtCredit (q : ℚ) : String :=
  if q.den = 1 then toString q.num else fmtDec1 q

/-- The matching scan `courses.iter().enumerate().find(...)` used throughout
auditor.rs, starting at index `i`: the first record (in document order) whose
index is not yet used, whose code equals the target and whose grade passes. -/
def findMatchFrom (used : Finset ℕ) (code : String) :
    ℕ → List ParsedCourse → Option (ℕ × ParsedCourse)
  | _, [] => none
  | i, p :: rest =>
    if i ∉ used ∧ p.code = code ∧ is_passing_grade p.grade = true then some (i, p)
    else findMatchFrom used code (i + 1) rest

/-- First unused passing record whose code equals `code`, scanning the whole
record list from index 0. -/
def findMatch (courses : List ParsedCourse) (used : Finset ℕ) (code : String) :
    Option (ℕ × ParsedCourse) :=
  findMatchFrom used code 0 courses

/-- State threaded through `audit_gen_ed`: collected credits, missing list and
used-index set (auditor.rs lines 27-29). -/
structure GEState where
  credits : ℚ
  missing : List MissingCourse
  used : Finset ℕ
  deriving DecidableEq

/-- Inner scan of one sequence pair (auditor.rs lines 47-66): for each code of
the pair, look it up among the strand's declared courses and then search for
an unused passing record; collect the found indices and the capped credit sum.
Both halves are searched against the same incoming used set, and nothing is
consumed here. -/
def seqPairScan (courses : List ParsedCourse) (used : Finset ℕ)
    (strandCourses : List GenEdCourse) (pair : List String) : List ℕ × ℚ :=
  pair.foldl
    (fun acc code =>
      match strandCourses.find? (fun c => c.code == code) with
      | some defCourse =>
        match findMatch courses used code with
        | some (idx, parsed) =>
          (acc.1 ++ [idx], acc.2 + matched_course_credits defCourse.credits parsed)
        | none => acc
      | none => acc)
    ([], 0)

/-- The labelled `'outer` loop over `sequence_groups` (auditor.rs lines
42-77): skip pairs that are not length 2; return the scan result of the first
pair whose scan found both halves, or `none` when no pair fully matches. -/
def seqPairLoop (courses : List ParsedCourse) (used : Finset ℕ)
    (strandCourses : List GenEdCourse) : List (List String) → Option (List ℕ × ℚ)
  | [] => none
  | pair :: rest =>
    if pair.length = 2 then
      if (seqPairScan courses used strandCourses pair).1.length = 2 then
        some (seqPairScan courses used strandCourses pair)
      else seqPairLoop courses used strandCourses rest
    else seqPairLoop courses used strandCourses rest

/-- The `"choose_sequential_pair"` branch of `audit_gen_ed` (auditor.rs lines
36-98). The loop only runs when both `courses` and `sequence_groups` are
present; when no pair is satisfied and `sequence_groups` is present, one
missing entry enumerating the pairs is pushed. -/
def auditStrandSeqPair (courses : List ParsedCourse) (s : GEState)
    (strand : GenEdStrand) : GEState :=
  let result :=
    match strand.courses, strand.sequence_groups with
    | some strandCourses, some groups => seqPairLoop courses s.used strandCourses groups
    | _, _ => none
  match result with
  | some (idxs, creditsSum) =>
    { s with credits := s.credits + creditsSum,
             used := idxs.foldl (fun u i => insert i u) s.used }
  | none =>
    match strand.sequence_groups with
    | some groups =>
      let pairText := String.intercalate " OR "
        ((groups.filter (fun p => p.length == 2)).map fun p =>
          p.getD 0 "" ++ " + " ++ p.getD 1 "")
      { s with missing := s.missing ++
          [⟨"General Education", strand.name ++ ": choose one pair (" ++ pairText ++ ")"⟩] }
    | none => s

/-- The `find_map` of the `"choose_one"` branch (auditor.rs lines 101-114):
scan the declared courses in order and return the first that has an unused
passing match, together with the matched index and capped credit. -/
def chooseOneFind (courses : List ParsedCourse) (used : Finset ℕ) :
    List GenEdCourse → Option (GenEdCourse × ℕ × ℚ)
  | [] => none
  | c :: rest =>
    match findMatch courses used c.code with
    | some (idx, parsed) => some (c, idx, matched_course_credits c.credits parsed)
    | none => chooseOneFind courses used rest

/-- The `"choose_one"` branch of `audit_gen_ed` (auditor.rs lines 99-131). -/
def auditStrandChooseOne (courses : List ParsedCourse) (s : GEState)
    (strand : GenEdStrand) : GEState :=
  match strand.courses with
  | none => s
  | some strandCourses =>
    match chooseOneFind courses s.used strandCourses with
    | some (_, idx, matchedCredits) =>
      { s with credits := s.credits + matchedCredits, used := insert idx s.used }
    | none =>
      let options := String.intercalate " OR "
        (strandCourses.map fun c => c.code ++ " - " ++ c.name)
      { s with missing := s.missing ++
          [⟨"General Education", strand.name ++ ": choose 1 (" ++ options ++ ")"⟩] }

/-- The course loop of one sub-group (auditor.rs lines 137-155), threading
(strand credits, sub-group credits, used set); the loop breaks as soon as the
sub-group's required credits are met. -/
def auditSubGroupCourses (courses : List ParsedCourse) (required : ℚ) :
    List GenEdCourse → ℚ × ℚ × Finset ℕ → ℚ × ℚ × Finset ℕ
  | [], st => st
  | c :: rest, (completed, subCredits, used) =>
    if required ≤ subCredits then (completed, subCredits, used)
    else
      match findMatch courses used c.code with
      | some (idx, parsed) =>
        let mc := matched_course_credits c.credits parsed
        auditSubGroupCourses courses required rest (completed + mc, subCredits + mc, insert idx used)
      | none => auditSubGroupCourses courses required rest (completed, subCredits, used)

/-- One sub-group of the `"choose_all_sub_groups"` branch (auditor.rs lines
134-176): scan the sub-group's courses, then push a deficit entry when the
sub-group fell short of its required credits. -/
def auditSubGroup (courses : List ParsedCourse) (strandName : String)
    (s : GEState) (sg : GenEdSubGroup) : GEState :=
  let r := auditSubGroupCourses courses sg.required_credits sg.courses (s.credits, 0, s.used)
  let s2 : GEState := { s with credits := r.1, used := r.2.2 }
  if r.2.1 < sg.required_credits then
    let options := String.intercalate " OR "
      (sg.courses.map fun c => c.code ++ " - " ++ c.name)
    { s2 with missing := s2.missing ++
        [⟨"General Education",
          strandName ++ " > " ++ sg.name ++ ": missing " ++
            fmtDec1 (sg.required_credits - r.2.1) ++ " credits (options: " ++ options ++ ")"⟩] }
  else s2

/-- The `"choose_all_sub_groups"` branch of `audit_gen_ed` (auditor.rs lines
132-178): all sub-groups are processed regardless of earlier shortfalls. -/
def auditStrandSubGroups (courses : List ParsedCourse) (s : GEState)
    (strand : GenEdStrand) : GEState :=
  match strand.sub_groups with
  | some subGroups => subGroups.foldl (auditSubGroup courses strand.name) s
  | none => s

/-- The course loop of the default (choose-all) branch (auditor.rs lines
180-202): every listed course must match an unused passing record; an
unmatched course pushes one missing entry. -/
def auditChooseAllCourses (courses : List ParsedCourse) (strandName : String) :
    List GenEdCourse → GEState → GEState
  | [], s => s
  | c :: rest, s =>
    match findMatch courses s.used c.code with
    | some (idx, parsed) =>
      auditChooseAllCourses courses strandName rest
        { s with credits := s.credits + matched_course_credits c.credits parsed,
                 used := insert idx s.used }
    | none =>
      auditChooseAllCourses courses strandName rest
        { s with missing := s.missing ++
            [⟨"General Education", strandName ++ ": " ++ c.code ++ " - " ++ c.name⟩] }

/-- The default `_` branch of the strand dispatch (auditor.rs lines 179-203). -/
def auditStrandChooseAll (courses : List ParsedCourse) (s : GEState)
    (strand : GenEdStrand) : GEState :=
  match strand.courses with
  | some strandCourses => auditChooseAllCourses courses strand.name strandCourses s
  | none => s

/-- One strand of `audit_gen_ed` (auditor.rs lines 32-205): dispatch on the
selection rule, defaulting a missing rule to `"choose_all"`; any unrecognized
rule string falls into the choose-all branch. -/
def auditStrand (courses : List ParsedCourse) (s : GEState)
    (strand : GenEdStrand) : GEState :=
  let selectionRule := strand.selection_rule.getD "choose_all"
  if selectionRule = "choose_sequential_pair" then auditStrandSeqPair courses s strand
  else if selectionRule = "choose_one" then auditStrandChooseOne courses s strand
  else if selectionRule = "choose_all_sub_groups" then auditStrandSubGroups courses s strand
  else auditStrandChooseAll courses s strand

/-- The course loop of one GenEd elective sub-category (auditor.rs lines
209-221), threading (strand credits, running elective total, sub-category
credits, used set); unlike sub-groups there is no early break. -/
def auditElectiveSubCatCourses (courses : List ParsedCourse) :
    List GenEdCourse → ℚ × ℚ × ℚ × Finset ℕ → ℚ × ℚ × ℚ × Finset ℕ
  | [], st => st
  | c :: rest, (completed, electiveTotal, subCatCredits, used) =>
    match findMatch courses used c.code with
    | some (idx, parsed) =>
      let mc := matched_course_credits c.credits parsed
      auditElectiveSubCatCourses courses rest
        (completed + mc, electiveTotal + mc, subCatCredits + mc, insert idx used)
    | none => auditElectiveSubCatCourses courses rest (completed, electiveTotal, subCatCredits, used)

/-- One GenEd elective sub-category (auditor.rs lines 207-233). -/
def auditElectiveSubCat (courses : List ParsedCourse) (st : GEState × ℚ)
    (subCat : GenEdElectiveSubCategory) : GEState × ℚ :=
  let r := auditElectiveSubCatCourses courses subCat.courses (st.1.credits, st.2, 0, st.1.used)
  let s2 : GEState := { st.1 with credits := r.1, used := r.2.2.2 }
  if r.2.2.1 < subCat.required_credits then
    ({ s2 with missing := s2.missing ++
        [⟨"General Education",
          "GenEd Elective > " ++ subCat.name ++ ": missing " ++
            fmtDec1 (subCat.required_credits - r.2.2.1) ++ " credits"⟩] }, r.2.1)
  else (s2, r.2.1)

/-- The strand loop of `audit_gen_ed` (auditor.rs lines 32-205), started from
the fresh state of auditor.rs lines 27-29. -/
def genEdStrandsPhase (courses : List ParsedCourse) (curriculum : GenEdCurriculum) : GEState :=
  curriculum.strands.foldl (auditStrand courses) ⟨0, [], ∅⟩

/-- The elective sub-category loop of `audit_gen_ed` (auditor.rs lines
207-233), which also accumulates the running GenEd-elective total, starting
from the strand loop's final state. -/
def genEdElectivesPhase (courses : List ParsedCourse) (curriculum : GenEdCurriculum) :
    GEState × ℚ :=
  curriculum.electives.sub_categories.foldl (auditElectiveSubCat courses)
    (genEdStrandsPhase courses curriculum, 0)

/-- Audits courses against the GenEd curriculum (auditor.rs `audit_gen_ed`,
lines 23-264), returning (completed credits, missing list, used-index set). -/
def audit_gen_ed (courses : List ParsedCourse) (curriculum : GenEdCurriculum) :
    ℚ × List MissingCourse × Finset ℕ :=
  let s2 := (genEdElectivesPhase courses curriculum).1
  let genEdElectiveTotal := (genEdElectivesPhase courses curriculum).2
  let s3 :=
    if genEdElectiveTotal < curriculum.electives.total_required_credits then
      { s2 with missing := s2.missing ++
          [⟨"General Education",
            curriculum.electives.name ++ ": missing " ++
              fmtDec1 (curriculum.electives.total_required_credits - genEdElectiveTotal) ++
              " credits"⟩] }
    else s2
  let s4 :=
    if s3.credits < curriculum.total_required_credits then
      let hasGeSummary := s3.missing.any fun m =>
        m.category == "General Education" &&
          m.description.startsWith "Overall General Education"
      if hasGeSummary then s3
      else
        { s3 with missing := s3.missing ++
            [⟨"General Education",
              "Overall General Education: missing " ++
                fmtDec1 (curriculum.total_required_credits - s3.credits) ++ " credits"⟩] }
    else s3
  (s4.credits, s4.missing, s4.used)

/-- State threaded through `audit_major`: completed credits, elective credits,
missing list and used-index set (auditor.rs lines 273-276). -/
structure MAState where
  credits : ℚ
  elective_credits : ℚ
  missing : List MissingCourse
  used : Finset ℕ
  deriving DecidableEq

/-- The per-course loop shared by the Basic Science and Core Courses phases
(auditor.rs lines 278-310): match-or-report-missing with the given category. -/
def auditMajorCourseList (courses : List ParsedCourse) (category : String) :
    List MajorCourse → MAState → MAState
  | [], s => s
  | c :: rest, s =>
    match findMatch courses s.used c.code with
    | some (idx, parsed) =>
      auditMajorCourseList courses category rest
        { s with credits := s.credits + matched_course_credits c.credits parsed,
                 used := insert idx s.used }
    | none =>
      auditMajorCourseList courses category rest
        { s with missing := s.missing ++ [⟨category, c.code ++ " - " ++ c.name⟩] }

/-- The capstone option loop (auditor.rs lines 312-326): first option with an
unused passing match wins and the loop breaks. -/
def capstoneFind (courses : List ParsedCourse) (used : Finset ℕ) :
    List MajorCourse → Option (ℕ × ℚ)
  | [] => none
  | o :: rest =>
    match findMatch courses used o.code with
    | some (idx, parsed) => some (idx, matched_course_credits o.credits parsed)
    | none => capstoneFind courses used rest

/-- The course loop of one elective cluster (auditor.rs lines 347-364),
threading (elective credits, used set, courses found in cluster). A course
counts as found either by consuming an unused passing match or, failing that,
when any passing record with its code exists anywhere in the transcript. -/
def auditClusterCourses (courses : List ParsedCourse) :
    List MajorCourse → ℚ × Finset ℕ × ℕ → ℚ × Finset ℕ × ℕ
  | [], st => st
  | c :: rest, (electiveCredits, used, found) =>
    match findMatch courses used c.code with
    | some (idx, parsed) =>
      auditClusterCourses courses rest
        (electiveCredits + matched_course_credits c.credits parsed, insert idx used, found + 1)
    | none =>
      if courses.any (fun r => r.code == c.code && is_passing_grade r.grade) then
        auditClusterCourses courses rest (electiveCredits, used, found + 1)
      else auditClusterCourses courses rest (electiveCredits, used, found)

/-- One cluster of the elective scan (auditor.rs lines 345-368), threading
(elective credits, used set, completed-cluster count). -/
def auditCluster (courses : List ParsedCourse) (st : ℚ × Finset ℕ × ℕ)
    (cluster : MajorCluster) : ℚ × Finset ℕ × ℕ :=
  let r := auditClusterCourses courses cluster.courses (st.1, st.2.1, 0)
  if cluster.min_courses ≤ r.2.2 then (r.1, r.2.1, st.2.2 + 1)
  else (r.1, r.2.1, st.2.2)

/-- One domain of the elective scan (auditor.rs lines 344-369): every cluster
of every domain is scanned, with no early exit. -/
def auditDomain (courses : List ParsedCourse) (st : ℚ × Finset ℕ × ℕ)
    (domain : MajorDomain) : ℚ × Finset ℕ × ℕ :=
  domain.clusters.foldl (auditCluster courses) st

/-- The greedy scan of all records for one "others" course (auditor.rs lines
385-394), starting at record index `i`: every unused passing record with the
course's code is consumed and credited. -/
def auditOthersCourse (course : MajorCourse) :
    ℕ → List ParsedCourse → ℚ × Finset ℕ → ℚ × Finset ℕ
  | _, [], st => st
  | i, p :: rest, (electiveCredits, used) =>
    if i ∉ used ∧ p.code = course.code ∧ is_passing_grade p.grade = true then
      auditOthersCourse course (i + 1) rest
        (electiveCredits + matched_course_credits course.credits p, insert i used)
    else auditOthersCourse course (i + 1) rest (electiveCredits, used)

/-- The greedy "others" phase (auditor.rs lines 384-395): for each "other"
course, scan all records and consume every unused passing record with the
course's code. -/
def auditOthers (courses : List ParsedCourse) (others : List MajorCourse)
    (s : MAState) : MAState :=
  others.foldl
    (fun (s : MAState) course =>
      { s with
        elective_credits := (auditOthersCourse course 0 courses (s.elective_credits, s.used)).1,
        used := (auditOthersCourse course 0 courses (s.elective_credits, s.used)).2 })
    s

/-- The Basic Science, Core Courses and Capstone phases of `audit_major`
(auditor.rs lines 278-341), started from the fresh state of lines 273-276. -/
def majorPreElectives (courses : List ParsedCourse) (curriculum : MajorCurriculum) : MAState :=
  let s1 := auditMajorCourseList courses "Basic Science" curriculum.basic_science.courses
    ⟨0, 0, [], ∅⟩
  let s2 := auditMajorCourseList courses "Core Courses" curriculum.core_courses.courses s1
  match capstoneFind courses s2.used curriculum.capstone.options with
  | some (idx, matchedCredits) =>
    { s2 with credits := s2.credits + matchedCredits, used := insert idx s2.used }
  | none =>
    let optionsDesc := String.intercalate " OR "
      (curriculum.capstone.options.map fun o => o.code ++ " (" ++ o.name ++ ")")
    { s2 with missing := s2.missing ++ [⟨"Capstone", "Choose 1: " ++ optionsDesc⟩] }

/-- The domain/cluster scan of `audit_major` (auditor.rs lines 343-369),
returning (elective credits, used set, completed-cluster count). -/
def majorClusterResult (courses : List ParsedCourse) (curriculum : MajorCurriculum) :
    ℚ × Finset ℕ × ℕ :=
  curriculum.electives.domains.foldl (auditDomain courses)
    ((majorPreElectives courses curriculum).elective_credits,
      (majorPreElectives courses curriculum).used, 0)

/-- Audits courses against the major curriculum (auditor.rs `audit_major`,
lines 269-403), returning (completed credits, elective credits, missing list,
used-index set). The used-index set starts empty: the function does not see
the GenEd allocator's consumed indices. -/
def audit_major (courses : List ParsedCourse) (curriculum : MajorCurriculum) :
    ℚ × ℚ × List MissingCourse × Finset ℕ :=
  let s3 := majorPreElectives courses curriculum
  let electiveCredits := (majorClusterResult courses curriculum).1
  let used2 := (majorClusterResult courses curriculum).2.1
  let completedClusters := (majorClusterResult courses curriculum).2.2
  let s4 : MAState := { s3 with elective_credits := electiveCredits, used := used2 }
  let s5 :=
    if completedClusters < curriculum.electives.clusters_to_complete then
      { s4 with missing := s4.missing ++
          [⟨"Major Electives",
            "Required: " ++ toString curriculum.electives.clusters_to_complete ++
              " Clusters, Completed: " ++ toString completedClusters ++
              ". Please complete all courses within at least " ++
              toString curriculum.electives.clusters_to_complete ++ " clusters."⟩] }
    else s4
  let s6 := auditOthers courses curriculum.electives.others s5
  (s6.credits, s6.elective_credits, s6.missing, s6.used)

/-- The record loop of `calculate_free_electives` (auditor.rs lines 415-431),
starting at record index `i` and threading (credits, display list, seen dedupe
keys). A record already carrying a seen key is dropped entirely. -/
def freeElectivesGo (used : Finset ℕ) :
    ℕ → List ParsedCourse → ℚ → List String → List String → ℚ × List String
  | _, [], credits, list, _ => (credits, list)
  | i, p :: rest, credits, list, seen =>
    if i ∉ used ∧ is_passing_grade p.grade = true then
      let key := free_elective_dedupe_key p.code p.name
      if key ∈ seen then freeElectivesGo used (i + 1) rest credits list seen
      else
        freeElectivesGo used (i + 1) rest (credits + p.parsed_credit)
          (list ++ [p.code ++ " (Grade: " ++ p.grade ++ ", " ++
            fmtCredit p.parsed_credit ++ " cr)"])
          (key :: seen)
    else freeElectivesGo used (i + 1) rest credits list seen

/-- Calculates free-elective credits from unused courses (auditor.rs
`calculate_free_electives`, lines 407-434): raw parsed credits, first record
per dedupe key only. -/
def calculate_free_electives (courses : List ParsedCourse) (used : Finset ℕ) :
    ℚ × List String :=
  freeElectivesGo used 0 courses 0 [] []

/-! ## Aggregator (src/main.rs, analysis section of `App`, lines 179-272) -/

/-- The `retain` predicate of main.rs lines 203-208: a missing entry tagged
"General Education" is kept only while aggregate GenEd credits are below the
GenEd total requirement; every other category is always kept. -/
def keepMissing (gen_ed_credits gen_ed_required : ℚ) (m : MissingCourse) : Bool :=
  if m.category = "General Education" then decide (gen_ed_credits < gen_ed_required)
  else true

/-- The suppression policy applied to the combined missing list (main.rs lines
201-208). -/
def applyMissingSuppression (missing : List MissingCourse)
    (gen_ed_credits gen_ed_required : ℚ) : List MissingCourse :=
  missing.filter (keepMissing gen_ed_credits gen_ed_required)

/-- Display-bucket state of the aggregator's record walk (main.rs lines
215-244). -/
structure BucketState where
  gen_ed_courses : List Course
  major_courses : List Course
  free_courses : List Course
  seen : List String

/-- One step of the aggregator's record walk (main.rs lines 221-244):
classify a record by which used-index set contains it, or as a deduped free
elective when passing. -/
def classifyRecord (gen_ed_used major_used all_used : Finset ℕ)
    (b : BucketState) (ip : ℕ × ParsedCourse) : BucketState :=
  let course : Course := ⟨ip.2.code, ip.2.name, ip.2.parsed_credit, ip.2.grade⟩
  if ip.1 ∈ gen_ed_used then { b with gen_ed_courses := b.gen_ed_courses ++ [course] }
  else if ip.1 ∈ major_used then { b with major_courses := b.major_courses ++ [course] }
  else if ip.1 ∈ all_used then { b with major_courses := b.major_courses ++ [course] }
  else if is_passing_grade ip.2.grade then
    let key := free_elective_dedupe_key ip.2.code ip.2.name
    if key ∈ b.seen then b
    else { b with free_courses := b.free_courses ++ [course], seen := b.seen ++ [key] }
  else b

/-- The aggregation performed by `App` once the transcript has been parsed
(main.rs lines 179-272): run both allocators on the full record sequence,
union their used sets, collect free electives over the remainder, suppress
GenEd missing entries once the GenEd total is met, and build the final
`AuditResult`. -/
def runAudit (courses : List ParsedCourse) (gen_ed : GenEdCurriculum)
    (major : MajorCurriculum) : AuditResult :=
  let gen_ed_credits := (audit_gen_ed courses gen_ed).1
  let gen_ed_missing := (audit_gen_ed courses gen_ed).2.1
  let gen_ed_used := (audit_gen_ed courses gen_ed).2.2
  let major_credits := (audit_major courses major).1
  let elective_credits := (audit_major courses major).2.1
  let major_missing := (audit_major courses major).2.2.1
  let major_used := (audit_major courses major).2.2.2
  let all_used_courses := gen_ed_used ∪ major_used
  let free_elective_credits := (calculate_free_electives courses all_used_courses).1
  let all_missing :=
    applyMissingSuppression (gen_ed_missing ++ major_missing)
      gen_ed_credits gen_ed.total_required_credits
  let total_credits := gen_ed_credits + major_credits + elective_credits + free_elective_credits
  let b := courses.enum.foldl
    (classifyRecord gen_ed_used major_used all_used_courses) ⟨[], [], [], []⟩
  { total_credits := total_credits,
    categories := [
      ⟨"General Education", gen_ed.total_required_credits, gen_ed_credits, b.gen_ed_courses⟩,
      ⟨"Major Courses", major.total_required_credits, major_credits + elective_credits,
        b.major_courses⟩,
      ⟨"Free Electives", 6, free_elective_credits, b.free_courses⟩],
    missing_subjects := all_missing }

/-! ## Static curriculum data (src/data/gen_ed.rs and src/data/major.rs) -/

/-- The static General Education curriculum returned by
`get_gen_ed_curriculum` in src/data/gen_ed.rs, transcribed field by field. -/
def get_gen_ed_curriculum : GenEdCurriculum :=
  { name := "General Education",
    total_required_credits := 30,
    strands := [
      { id := 1,
        name := "King's Philosophy and Benefits for Mankind",
        required_credits := 4,
        sub_groups := none,
        courses := some [
          { code := "003-001",
            name := "Volunteer Leader for Sustainable Community Development",
            credits := 3 },
          { code := "388-100",
            name := "Health for All",
            credits := 1 }],
        selection_rule := some ("choose_all"),
        sequence_groups := none },
      { id := 2,
        name := "Citizenship and Peaceful Life",
        required_credits := 5,
        sub_groups := none,
        courses := some [
          { code := "895-001",
            name := "Good Citizens",
            credits := 2 },
          { code := "950-102",
            name := "Happy and Peaceful Life",
            credits := 3 }],
        selection_rule := some ("choose_all"),
        sequence_groups := none },
      { id := 3,
        name := "Entrepreneurship",
        required_credits := 1,
        sub_groups := none,
        courses := some [
          { code := "460-001",
            name := "Idea to Entrepreneurship",
            credits := 1 }],
        selection_rule := some ("choose_all"),
        sequence_groups := none },
      { id := 4,
        name := "Living with Awareness and Digital Literacy",
        required_credits := 4,
        sub_groups := some [
          { name := "Living with Awareness",
            required_credits := 2,
            courses := [
              { code := "315-201",
                name := "Life in the Future",
                credits := 2 }] },
          { name := "Digital Literacy",
            required_credits := 2,
            courses := [
              { code := "315-104",
                name := "Digital Technology Literacy",
                credits := 2 }] }],
        courses := none,
        selection_rule := some ("choose_all_sub_groups"),
        sequence_groups := none },
      { id := 5,
        name := "Systems Thinking, Logical and Numerical Thinking",
        required_credits := 4,
        sub_groups := some [
          { name := "Logical and Numerical Thinking (GE2A)",
            required_credits := 2,
            courses := [
              { code := "895-211",
                name := "Thinking and Behavioral Prediction",
                credits := 2 },
              { code := "315-100",
                name := "The Art of Computing",
                credits := 2 },
              { code := "322-100",
                name := "Getting rich with mathematics",
                credits := 2 },
              { code := "473-001",
                name := "Financial Literacy for a Better Life",
                credits := 2 },
              { code := "473-002",
                name := "Reading Financial Statements for Investment",
                credits := 2 },
              { code := "142-010",
                name := "Organic Thinking",
                credits := 2 }] },
          { name := "Systems Thinking (GE2B)",
            required_credits := 2,
            courses := [
              { code := "895-221",
                name := "Thinking and Systematic Problem Solving",
                credits := 2 },
              { code := "895-222",
                name := "Critical Thinking",
                credits := 2 },
              { code := "895-223",
                name := "Cultivating Happiness through Positivity",
                credits := 2 },
              { code := "895-224",
                name := "Logic in Daily Life",
                credits := 2 },
              { code := "895-225",
                name := "The World Today",
                credits := 2 },
              { code := "315-202",
                name := "Thinking and Reasoning",
                credits := 2 },
              { code := "200-108",
                name := "MOBA and Strategy Development",
                credits := 2 },
              { code := "142-009",
                name := "Creative Problem Solving",
                credits := 2 }] }],
        courses := none,
        selection_rule := some ("choose_all_sub_groups"),
        sequence_groups := none },
      { id := 6,
        name := "Language and Communication",
        required_credits := 4,
        sub_groups := none,
        courses := some [
          { code := "890-101",
            name := "Essential English",
            credits := 0 },
          { code := "890-102",
            name := "Everyday English",
            credits := 2 },
          { code := "890-103",
            name := "English on the Go",
            credits := 2 },
          { code := "890-104",
            name := "English in the Digital World",
            credits := 2 },
          { code := "890-105",
            name := "English for Academic Success",
            credits := 2 }],
        selection_rule := some ("choose_sequential_pair"),
        sequence_groups := some [["890-102", "890-103"], ["890-103", "890-104"], ["890-104", "890-105"]] },
      { id := 7,
        name := "Aesthetics and Sports",
        required_credits := 2,
        sub_groups := none,
        courses := some [
          { code := "895-861",
            name := "The Guitar",
            credits := 2 },
          { code := "895-862",
            name := "The Ukulele",
            credits := 2 },
          { code := "895-863",
            name := "The Harmonica",
            credits := 2 },
          { code := "895-864",
            name := "Western Music",
            credits := 2 },
          { code := "895-865",
            name := "The Traditional Thai Dulcimer",
            credits := 2 },
          { code := "895-866",
            name := "Piphat Ensembles",
            credits := 2 },
          { code := "895-867",
            name := "Creative Music",
            credits := 2 },
          { code := "895-868",
            name := "ASEAN Music",
            credits := 2 },
          { code := "895-833",
            name := "Drama and Self-reflection",
            credits := 2 },
          { code := "895-834",
            name := "Creative Drawing",
            credits := 2 },
          { code := "895-843",
            name := "Appreciation of the Thai Language",
            credits := 2 },
          { code := "315-102",
            name := "The Aesthetic in Photography",
            credits := 2 },
          { code := "061-001",
            name := "Aesthetics of Thai Dance",
            credits := 2 },
          { code := "061-002",
            name := "Music aesthetics in Life",
            credits := 2 },
          { code := "061-003",
            name := "Nora for health",
            credits := 2 },
          { code := "895-871",
            name := "Pétanque",
            credits := 2 },
          { code := "895-872",
            name := "Takraw",
            credits := 2 },
          { code := "895-873",
            name := "Futsal",
            credits := 2 },
          { code := "895-874",
            name := "Social Dance",
            credits := 2 },
          { code := "895-875",
            name := "Badminton",
            credits := 2 },
          { code := "895-876",
            name := "Swimming",
            credits := 2 },
          { code := "895-877",
            name := "Swimming for Lifesaving",
            credits := 2 },
          { code := "895-878",
            name := "Table Tennis",
            credits := 2 },
          { code := "895-879",
            name := "Tennis",
            credits := 2 },
          { code := "895-880",
            name := "Exercise for Health",
            credits := 2 },
          { code := "895-881",
            name := "Fat to Fit",
            credits := 2 },
          { code := "895-882",
            name := "Fit and Firm",
            credits := 2 },
          { code := "895-883",
            name := "Happy Camping",
            credits := 2 },
          { code := "895-884",
            name := "Basketball",
            credits := 2 }],
        selection_rule := some ("choose_one"),
        sequence_groups := none }],
    electives :=
    { name := "GenEd Electives (GE8)",
      total_required_credits := 6,
      sub_categories := [
        { name := "English Language",
          required_credits := 0,
          min_courses := 0,
          max_courses := 99,
          courses := [
            { code := "890-811",
              name := "English Grammar for Real Life Communication",
              credits := 2 },
            { code := "890-821",
              name := "English Pronunciation through Songs",
              credits := 2 },
            { code := "890-831",
              name := "Strategic Reading for Greater Comprehension",
              credits := 2 },
            { code := "890-841",
              name := "English for Presentations and Visual Aids Design",
              credits := 2 },
            { code := "890-842",
              name := "English Listening and Speaking for Digital Citizens",
              credits := 2 },
            { code := "890-843",
              name := "English Conversation",
              credits := 2 },
            { code := "890-851",
              name := "Reading to Write in English",
              credits := 2 },
            { code := "890-852",
              name := "Academic Reading and Writing in English",
              credits := 2 },
            { code := "890-861",
              name := "Consolidating English through News",
              credits := 2 },
            { code := "890-862",
              name := "English around the Clock",
              credits := 2 },
            { code := "890-863",
              name := "English for Digital Literacy",
              credits := 2 },
            { code := "890-871",
              name := "English Writing with Online Technology",
              credits := 2 },
            { code := "890-872",
              name := "English and Digital Tools",
              credits := 2 },
            { code := "890-873",
              name := "Discovering English with Online Corpora",
              credits := 2 },
            { code := "890-874",
              name := "Google Translate Me",
              credits := 2 },
            { code := "890-881",
              name := "English for Job Applications",
              credits := 2 },
            { code := "890-882",
              name := "English in the Workplace",
              credits := 2 },
            { code := "890-883",
              name := "English for Travelers",
              credits := 2 },
            { code := "890-884",
              name := "English for Entrepreneurs and Consumers",
              credits := 2 },
            { code := "890-885",
              name := "English Test Taking Strategies for Employment",
              credits := 2 },
            { code := "890-886",
              name := "Learning English through Cultures",
              credits := 2 }] },
        { name := "Foreign Languages",
          required_credits := 0,
          min_courses := 0,
          max_courses := 99,
          courses := [
            { code := "891-811",
              name := "First Steps to Japanese",
              credits := 2 },
            { code := "891-812",
              name := "Japanese Conversation in Daily Life",
              credits := 2 },
            { code := "891-813",
              name := "Japanese Conversation in the Workplace",
              credits := 2 },
            { code := "891-821",
              name := "Basic Chinese",
              credits := 2 },
            { code := "891-822",
              name := "Chinese Conversation in Daily Life",
              credits := 2 },
            { code := "891-823",
              name := "Chinese Conversation in the Workplace",
              credits := 2 },
            { code := "891-824",
              name := "Chinese Calligraphy",
              credits := 2 },
            { code := "891-831",
              name := "Basic Malay",
              credits := 2 },
            { code := "891-832",
              name := "Malay Conversation in Daily Life",
              credits := 2 },
            { code := "891-833",
              name := "Malay Conversation for Tourism",
              credits := 2 },
            { code := "891-841",
              name := "Survival Korean for Thais",
              credits := 2 },
            { code := "891-842",
              name := "Korean Conversation for Beginners",
              credits := 2 },
            { code := "891-843",
              name := "Insights into Korean Language and Culture",
              credits := 2 },
            { code := "891-861",
              name := "Getting to Know Bahasa Indonesia",
              credits := 2 },
            { code := "891-862",
              name := "Bahasa Indonesia for Everyday Communication",
              credits := 2 },
            { code := "891-863",
              name := "Bahasa Indonesia in the Workplace",
              credits := 2 }] },
        { name := "Humanities and Social Sciences",
          required_credits := 0,
          min_courses := 0,
          max_courses := 99,
          courses := [
            { code := "895-811",
              name := "Psychology of Love",
              credits := 2 },
            { code := "895-812",
              name := "Psychology for Good Life",
              credits := 2 },
            { code := "895-813",
              name := "Workplace Newcomers",
              credits := 2 },
            { code := "895-814",
              name := "Knowing Others and Yourself through Human Behaviors",
              credits := 2 },
            { code := "895-815",
              name := "Social Interaction",
              credits := 2 },
            { code := "895-816",
              name := "Development Studies",
              credits := 2 },
            { code := "895-817",
              name := "Charming Personality",
              credits := 2 },
            { code := "895-818",
              name := "Life Skills in Society 5.0",
              credits := 2 },
            { code := "895-819",
              name := "Me and Others",
              credits := 2 },
            { code := "895-821",
              name := "Tourism and Superstition",
              credits := 2 },
            { code := "895-822",
              name := "Backpacking Trips",
              credits := 2 },
            { code := "895-823",
              name := "Psychology for Service",
              credits := 2 },
            { code := "895-824",
              name := "Creative Tourism",
              credits := 2 },
            { code := "895-825",
              name := "Volunteer Tourism",
              credits := 2 },
            { code := "895-826",
              name := "Passengers Your attention Please",
              credits := 2 },
            { code := "895-827",
              name := "ASEAN World Heritage Sites",
              credits := 2 },
            { code := "895-831",
              name := "Ethics for Life",
              credits := 2 },
            { code := "895-832",
              name := "Religious Diversity",
              credits := 2 },
            { code := "895-835",
              name := "Art in Multicultural Society",
              credits := 2 },
            { code := "895-836",
              name := "China : Past, Present, and Future",
              credits := 2 },
            { code := "895-837",
              name := "Astrology and Life",
              credits := 2 },
            { code := "895-838",
              name := "History in Movies",
              credits := 2 },
            { code := "895-841",
              name := "Communication Skills",
              credits := 2 },
            { code := "895-842",
              name := "Thai Listening and Speaking Skills",
              credits := 2 },
            { code := "895-844",
              name := "The Art of Creative Writing",
              credits := 2 },
            { code := "895-845",
              name := "ASEAN Literature",
              credits := 2 },
            { code := "895-846",
              name := "Man and Literature",
              credits := 2 },
            { code := "895-847",
              name := "Culture in Literature",
              credits := 2 },
            { code := "895-848",
              name := "Thai Language and Culture",
              credits := 2 },
            { code := "895-849",
              name := "The Art of Listening",
              credits := 2 },
            { code := "895-850",
              name := "Thai Usage",
              credits := 2 },
            { code := "895-851",
              name := "The Charm of Southern Thai Dialects",
              credits := 2 }] },
        { name := "Science and Health",
          required_credits := 0,
          min_courses := 0,
          max_courses := 99,
          courses := [
            { code := "315-103",
              name := "Introduction to Intellectual Property",
              credits := 2 },
            { code := "336-214",
              name := "Smart Eating and Being Healthy",
              credits := 2 },
            { code := "336-215",
              name := "Safety Life from Toxic Substances",
              credits := 2 },
            { code := "336-216",
              name := "Drug and Health",
              credits := 2 },
            { code := "315-203",
              name := "Key to Nature",
              credits := 2 },
            { code := "315-205",
              name := "Science Entrepreneur Pitching",
              credits := 2 },
            { code := "315-206",
              name := "Science Facts",
              credits := 2 },
            { code := "338-101",
              name := "My body and health",
              credits := 2 }] },
        { name := "Law",
          required_credits := 0,
          min_courses := 0,
          max_courses := 99,
          courses := [
            { code := "874-191",
              name := "Introduction to Thai Legal System",
              credits := 2 },
            { code := "874-192",
              name := "Law relating to Occupations and Everyday Life",
              credits := 2 },
            { code := "874-193",
              name := "General Principles of Law and Judicial Process",
              credits := 2 },
            { code := "874-194",
              name := "Taxation and Life",
              credits := 2 },
            { code := "874-195",
              name := "Human Rights and Citizenship",
              credits := 2 }] },
        { name := "Interdisciplinary and Others",
          required_credits := 0,
          min_courses := 0,
          max_courses := 99,
          courses := [
            { code := "193-031",
              name := "Natural Therapy",
              credits := 2 },
            { code := "003-002",
              name := "PSU FOR MANKIND",
              credits := 2 },
            { code := "001-101",
              name := "ASEAN Studies",
              credits := 2 },
            { code := "858-154",
              name := "Green packaging in daily life",
              credits := 2 },
            { code := "858-161",
              name := "Nutrition and Healthy Food in Daily Life",
              credits := 2 },
            { code := "858-162",
              name := "Being a Smart Consumer",
              credits := 2 },
            { code := "670-411",
              name := "Leading your life",
              credits := 2 },
            { code := "500-101",
              name := "Happy farm",
              credits := 2 }] }] } }


/-- The static Major curriculum returned by `get_major_curriculum` in
src/data/major.rs, transcribed field by field. The `min_courses` field of
each cluster is required by models.rs `MajorCluster` but is absent from every
cluster literal in src/data/major.rs; modelled from the spec: following the
file's own comment "Pick 2 clusters, complete all courses in them", it is
transcribed as the cluster's course count. -/
def get_major_curriculum : MajorCurriculum :=
  { name := "Major Specific Courses - Computer Science",
    total_required_credits := 96,
    basic_science :=
    { name := "Basic Science",
      required_credits := 12,
      courses := [
        { code := "324-101",
          name := "General Chemistry I",
          credits := 3 },
        { code := "325-101",
          name := "General Chemistry Laboratory I",
          credits := 1 },
        { code := "330-101",
          name := "Principles of Biology I",
          credits := 3 },
        { code := "331-101",
          name := "Principles of Biology Laboratory I",
          credits := 1 },
        { code := "332-101",
          name := "Fundamental Physics",
          credits := 3 },
        { code := "333-101",
          name := "Fundamental Physics Laboratory",
          credits := 1 }] },
    core_courses :=
    { name := "Core Courses",
      required_credits := 56,
      courses := [
        { code := "322-101",
          name := "Calculus I",
          credits := 3 },
        { code := "322-102",
          name := "Calculus II",
          credits := 3 },
        { code := "344-201",
          name := "MODULE: Computing for Computer Science",
          credits := 6 },
        { code := "344-111",
          name := "MODULE: Programming Concepts and Algorithms",
          credits := 6 },
        { code := "344-181",
          name := "Communication Skill in Technology",
          credits := 1 },
        { code := "344-233",
          name := "MODULE: Information Systems Analysis and Design and Principles of Database Systems",
          credits := 6 },
        { code := "344-211",
          name := "Introduction to Object-Oriented Programming",
          credits := 2 },
        { code := "344-243",
          name := "Software Interactive Design",
          credits := 1 },
        { code := "344-221",
          name := "Computer Architectures and Organization",
          credits := 2 },
        { code := "344-222",
          name := "Operating Systems",
          credits := 2 },
        { code := "344-223",
          name := "Fundamentals of Computer Security",
          credits := 2 },
        { code := "344-281",
          name := "Public Speaking in Computer Science",
          credits := 1 },
        { code := "344-341",
          name := "Software Engineering",
          credits := 3 },
        { code := "344-351",
          name := "Data Communications and Networking",
          credits := 3 },
        { code := "344-361",
          name := "Principles of Artificial Intelligence",
          credits := 3 },
        { code := "344-381",
          name := "Thinking and Creativity for Innovation Design",
          credits := 2 },
        { code := "344-382",
          name := "Ethics for Digital Technology",
          credits := 1 },
        { code := "344-491",
          name := "Seminar in Computer Science",
          credits := 1 }] },
    capstone :=
    { name := "Capstone",
      credits_per_option := 3,
      options := [
        { code := "344-492",
          name := "Projects in Computer Science",
          credits := 3 },
        { code := "344-495",
          name := "Cooperative Education",
          credits := 6 }] },
    electives :=
    { name := "Electives",
      total_required_credits := 12,
      clusters_to_complete := 2,
      domains := [
        { id := 1,
          name := "Big Data & Business Intelligence",
          description := some ("Cluster-based electives for data-driven technologies"),
          clusters := [
            { id := "1.1",
              name := "Big Data",
              min_courses := 3,
              description := none,
              courses := [
                { code := "344-331",
                  name := "Data Science",
                  credits := 3 },
                { code := "344-332",
                  name := "Data Mining",
                  credits := 3 },
                { code := "344-431",
                  name := "Big Data",
                  credits := 3 }] },
            { id := "1.2",
              name := "Business Intelligence",
              min_courses := 3,
              description := none,
              courses := [
                { code := "344-232",
                  name := "Knowledge Management and Decision Support Systems",
                  credits := 3 },
                { code := "344-333",
                  name := "Data Analytics and Visualization",
                  credits := 3 },
                { code := "344-334",
                  name := "Business Intelligent Systems",
                  credits := 3 }] },
            { id := "1.3",
              name := "Information-driven Technology",
              min_courses := 3,
              description := none,
              courses := [
                { code := "344-311",
                  name := "Advanced Object-Oriented Programming",
                  credits := 3 },
                { code := "344-432",
                  name := "Next Generation Database Technologies",
                  credits := 3 },
                { code := "344-401",
                  name := "Cryptography and Security",
                  credits := 3 }] }] },
        { id := 2,
          name := "Internet & Network Technology",
          description := some ("Cluster-based electives for network and internet technologies"),
          clusters := [
            { id := "2.1",
              name := "Network Technology",
              min_courses := 3,
              description := none,
              courses := [
                { code := "344-352",
                  name := "Computer Network Systems",
                  credits := 3 },
                { code := "344-353",
                  name := "Computer Systems and Network Security",
                  credits := 3 },
                { code := "344-451",
                  name := "Internet Technology and Applications",
                  credits := 3 }] },
            { id := "2.2",
              name := "Wireless and Mobile Technology",
              min_courses := 3,
              description := none,
              courses := [
                { code := "344-212",
                  name := "Web Application Programming",
                  credits := 3 },
                { code := "344-312",
                  name := "Mobile Application Development",
                  credits := 3 },
                { code := "344-321",
                  name := "Wireless Technology",
                  credits := 3 }] },
            { id := "2.3",
              name := "Internet Technology",
              min_courses := 3,
              description := none,
              courses := [
                { code := "344-322",
                  name := "Embedded Systems",
                  credits := 3 },
                { code := "344-323",
                  name := "Internet of Things",
                  credits := 3 },
                { code := "344-324",
                  name := "Cloud Computing Systems",
                  credits := 3 }] }] },
        { id := 3,
          name := "Software Development",
          description := some ("Cluster-based electives for software development specialization"),
          clusters := [
            { id := "3.1",
              name := "Software Assessment and QA",
              min_courses := 3,
              description := none,
              courses := [
                { code := "344-342",
                  name := "Software Testing Techniques",
                  credits := 3 },
                { code := "344-441",
                  name := "Software Project and Quality Management",
                  credits := 3 },
                { code := "344-442",
                  name := "Software Measurement and Evaluation",
                  credits := 3 }] },
            { id := "3.2",
              name := "Software Development and Management",
              min_courses := 3,
              description := none,
              courses := [
                { code := "344-242",
                  name := "Principles of Business Software Development",
                  credits := 3 },
                { code := "344-335",
                  name := "Database Application Development",
                  credits := 3 },
                { code := "344-443",
                  name := "Object-Oriented Analysis and Design",
                  credits := 3 }] },
            { id := "3.3",
              name := "UI/UX Design",
              min_courses := 3,
              description := none,
              courses := [
                { code := "344-343",
                  name := "Introduction to User Experience Design",
                  credits := 3 },
                { code := "344-344",
                  name := "Usability Evaluation",
                  credits := 3 },
                { code := "344-444",
                  name := "Information Architecture for User Experience Design",
                  credits := 3 }] },
            { id := "3.4",
              name := "Database Development",
              min_courses := 3,
              description := none,
              courses := [
                { code := "344-335",
                  name := "Database Application Development",
                  credits := 3 },
                { code := "344-433",
                  name := "Database Administration and Maintenance",
                  credits := 3 },
                { code := "344-434",
                  name := "Database Performance Tuning",
                  credits := 3 }] }] },
        { id := 4,
          name := "AI & Computer Vision",
          description := some ("Cluster-based electives for AI and computer vision specialization"),
          clusters := [
            { id := "4.1",
              name := "AI",
              min_courses := 5,
              description := some ("Choose 1 from: Neural Networks / Pattern Recognition / Internet of Robotic Things"),
              courses := [
                { code := "344-261",
                  name := "Artificial Intelligence for Everyone",
                  credits := 3 },
                { code := "344-362",
                  name := "Machine Learning",
                  credits := 3 },
                { code := "344-461",
                  name := "Neural Networks",
                  credits := 3 },
                { code := "344-462",
                  name := "Pattern Recognition",
                  credits := 3 },
                { code := "344-463",
                  name := "Internet of Robotic Things",
                  credits := 3 }] },
            { id := "4.2",
              name := "Linguistic Intelligence",
              min_courses := 3,
              description := none,
              courses := [
                { code := "344-363",
                  name := "Natural Language Processing",
                  credits := 3 },
                { code := "344-464",
                  name := "Text Mining and Sentiment Analysis",
                  credits := 3 },
                { code := "344-465",
                  name := "Linguistic Intelligence and Machine Translation",
                  credits := 3 }] },
            { id := "4.3",
              name := "Game Programming",
              min_courses := 3,
              description := none,
              courses := [
                { code := "344-271",
                  name := "3D Modeling and Animation",
                  credits := 3 },
                { code := "344-371",
                  name := "Introduction to Computer Game Programming",
                  credits := 3 },
                { code := "344-372",
                  name := "Advanced Game Development",
                  credits := 3 }] },
            { id := "4.4",
              name := "Computer Vision",
              min_courses := 3,
              description := none,
              courses := [
                { code := "344-373",
                  name := "Fundamentals of Digital Image Processing",
                  credits := 3 },
                { code := "344-374",
                  name := "Advanced Digital Image Processing",
                  credits := 3 },
                { code := "344-471",
                  name := "Computer Vision and Applications",
                  credits := 3 }] }] }],
      others := [
        { code := "344-496",
          name := "Special Topics in Computer Science",
          credits := 3 },
        { code := "344-493",
          name := "Selected Topic in Computer Science I",
          credits := 3 },
        { code := "344-494",
          name := "Selected Topic in Computer Science II",
          credits := 3 }] } }

/-- A GenEd curriculum whose single strand is a choose-all strand with an
empty course list, used to probe the engine's empty-group behavior. -/
def emptyChooseAllGenEd : GenEdCurriculum :=
  { name := "General Education",
    total_required_credits := 0,
    strands := [
      { id := 1,
        name := "Empty Strand",
        required_credits := 3,
        sub_groups := none,
        courses := some [],
        selection_rule := some ("choose_all"),
        sequence_groups := none }],
    electives :=
      { name := "GenEd Electives",
        total_required_credits := 0,
        sub_categories := [] } }

/-! ## Derived notions used by the verified properties -/

/-- All course codes a GenEd strand can consume through its strand branch:
its direct course list and every sub-group course list. -/
def genEdStrandCodes (strand : GenEdStrand) : List String :=
  (strand.courses.getD []).map GenEdCourse.code ++
    ((strand.sub_groups.getD []).map fun sg => sg.courses.map GenEdCourse.code).flatten

/-- All course codes `audit_gen_ed` can ever consume: strand codes plus the
elective sub-category codes. -/
def genEdCodes (curriculum : GenEdCurriculum) : List String :=
  (curriculum.strands.map genEdStrandCodes).flatten ++
    (curriculum.electives.sub_categories.map fun sc =>
      sc.courses.map GenEdCourse.code).flatten

/-- All course codes `audit_major` can ever consume: basic science, core,
capstone options, every cluster of every domain, and the "others" bucket. -/
def majorCodes (curriculum : MajorCurriculum) : List String :=
  curriculum.basic_science.courses.map MajorCourse.code ++
    curriculum.core_courses.courses.map MajorCourse.code ++
    curriculum.capstone.options.map MajorCourse.code ++
    ((curriculum.electives.domains.map fun d =>
      (d.clusters.map fun cl => cl.courses.map MajorCourse.code).flatten).flatten) ++
    curriculum.electives.others.map MajorCourse.code

/-- Provenance of a used-index set: every index of `u2` either was already in
`u1` or points to a record of `courses` whose code lies in `C`. -/
def UsedProv (courses : List ParsedCourse) (C : List String) (u1 u2 : Finset ℕ) : Prop :=
  ∀ j ∈ u2, j ∈ u1 ∨ ∃ p, courses.get? j = some p ∧ p.code ∈ C

/-- A sequence pair fully matches when each of its codes is declared among
the strand's courses and has an unused passing record (both halves are
checked against the same used set, exactly as in auditor.rs lines 50-66). -/
def FullPair (courses : List ParsedCourse) (used : Finset ℕ)
    (strandCourses : List GenEdCourse) (pair : List String) : Prop :=
  ∀ code ∈ pair,
    (strandCourses.find? (fun c => c.code == code)).isSome ∧
      (findMatch courses used code).isSome = true

instance (courses : List ParsedCourse) (used : Finset ℕ)
    (strandCourses : List GenEdCourse) (pair : List String) :
    Decidable (FullPair courses used strandCourses pair) := by
  rw [FullPair]
  infer_instance

/-- The records eligible for free electives, with their indices, starting the
index count at `i`: not consumed and passing (spec, section 4.3). -/
def freeEligibleFrom (used : Finset ℕ) : ℕ → List ParsedCourse → List (ℕ × ParsedCourse)
  | _, [] => []
  | i, p :: rest =>
    if i ∉ used ∧ is_passing_grade p.grade = true then
      (i, p) :: freeEligibleFrom used (i + 1) rest
    else freeEligibleFrom used (i + 1) rest

/-- First-occurrence dedupe by normalized (code, name) key, relative to a set
of already-seen keys: the first record for a given key is kept, every later
record with the same key is dropped (spec, section 4.3). -/
def dedupeFirstByKey : List (ℕ × ParsedCourse) → List String → List (ℕ × ParsedCourse)
  | [], _ => []
  | ip :: rest, seen =>
    let key := free_elective_dedupe_key ip.2.code ip.2.name
    if key ∈ seen then dedupeFirstByKey rest seen
    else ip :: dedupeFirstByKey rest (key :: seen)

/-- The indexed records that `calculate_free_electives` counts: eligible
records, first per dedupe key. -/
def freeKept (courses : List ParsedCourse) (used : Finset ℕ) : List (ℕ × ParsedCourse) :=
  dedupeFirstByKey (freeEligibleFrom used 0 courses) []

/-- The display entry built for one kept free-elective record
(auditor.rs lines 425-428). -/
def freeEntry (p : ParsedCourse) : String :=
  p.code ++ " (Grade: " ++ p.grade ++ ", " ++ fmtCredit p.parsed_credit ++ " cr)"

/-- How many of a cluster's listed courses have a passing record with their
code anywhere in the transcript, consumed or not (spec, section 4.2). -/
def clusterFoundCount (courses : List ParsedCourse) (cluster : MajorCluster) : ℕ :=
  cluster.courses.countP fun c =>
    courses.any fun r => r.code == c.code && is_passing_grade r.grade

/-- The completed-cluster count as the spec states it: a cluster is completed
exactly when at least `min_courses` of its listed courses have a passing
record somewhere in the transcript; every cluster of every domain counts. -/
def completedClustersSpec (courses : List ParsedCourse) (curriculum : MajorCurriculum) : ℕ :=
  (curriculum.electives.domains.map fun d =>
    d.clusters.countP fun cl => decide (cl.min_courses ≤ clusterFoundCount courses cl)).sum

/-- The indexed records (counting from `i`) that the greedy "others" scan for
one repeatable course consumes: unused, matching code, passing. -/
def othersMatchedFrom (used : Finset ℕ) (code : String) :
    ℕ → List ParsedCourse → List (ℕ × ParsedCourse)
  | _, [] => []
  | i, p :: rest =>
    if i ∉ used ∧ p.code = code ∧ is_passing_grade p.grade = true then
      (i, p) :: othersMatchedFrom used code (i + 1) rest
    else othersMatchedFrom used code (i + 1) rest

/-! ## Ground lemmas about the matching scan -/

theorem findMatchFrom_eq_some {used : Finset ℕ} {code : String} :
    ∀ (l : List ParsedCourse) (i j : ℕ) (p : ParsedCourse),
      findMatchFrom used code i l = some (j, p) →
      i ≤ j ∧ l.get? (j - i) = some p ∧ j ∉ used ∧ p.code = code ∧
        is_passing_grade p.grade = true := by
  intro l
  induction l with
  | nil => intro i j p h; simp [findMatchFrom] at h
  | cons q rest ih =>
    intro i j p h
    rw [findMatchFrom] at h
    split at h
    · rename_i hc
      injection h with h'
      obtain ⟨h1, h2⟩ := Prod.mk.injEq .. |>.mp h'
      subst h1; subst h2
      exact ⟨le_rfl, by simp, hc.1, hc.2.1, hc.2.2⟩
    · obtain ⟨hle, hget, hj, hcode, hpass⟩ := ih (i + 1) j p h
      refine ⟨by omega, ?_, hj, hcode, hpass⟩
      have hji : j - i = (j - (i + 1)) + 1 := by omega
      rw [hji]
      exact hget

theorem findMatch_eq_some {courses : List ParsedCourse} {used : Finset ℕ}
    {code : String} {j : ℕ} {p : ParsedCourse}
    (h : findMatch courses used code = some (j, p)) :
    courses.get? j = some p ∧ j ∉ used ∧ p.code = code ∧
      is_passing_grade p.grade = true := by
  obtain ⟨_, hget, hj, hcode, hpass⟩ := findMatchFrom_eq_some courses 0 j p h
  exact ⟨by simpa using hget, hj, hcode, hpass⟩

theorem mem_of_get?_eq_some {l : List ParsedCourse} {j : ℕ} {p : ParsedCourse}
    (h : l.get? j = some p) : p ∈ l := by
  induction l generalizing j with
  | nil => simp [List.get?] at h
  | cons q rest ih =>
    cases j with
    | zero => simp [List.get?] at h; simp [h]
    | succ k => exact List.mem_cons_of_mem q (ih h)

theorem any_passing_of_findMatch {courses : List ParsedCourse} {used : Finset ℕ}
    {code : String} {j : ℕ} {p : ParsedCourse}
    (h : findMatch courses used code = some (j, p)) :
    (courses.any fun r => r.code == code && is_passing_grade r.grade) = true := by
  obtain ⟨hget, _, hcode, hpass⟩ := findMatch_eq_some h
  refine List.any_eq_true.2 ⟨p, mem_of_get?_eq_some hget, ?_⟩
  simp [hcode, hpass]

/-! ## Used-set provenance machinery -/

theorem UsedProv.refl {courses : List ParsedCourse} {C : List String}
    {u : Finset ℕ} : UsedProv courses C u u := fun _ hj => Or.inl hj

theorem UsedProv.trans {courses : List ParsedCourse} {C : List String}
    {u v w : Finset ℕ} (h1 : UsedProv courses C u v) (h2 : UsedProv courses C v w) :
    UsedProv courses C u w := fun j hj =>
  (h2 j hj).elim (fun hv => h1 j hv) Or.inr

theorem UsedProv.mono {courses : List ParsedCourse} {C C2 : List String}
    {u v : Finset ℕ} (hC : ∀ x ∈ C, x ∈ C2) (h : UsedProv courses C u v) :
    UsedProv courses C2 u v := fun j hj =>
  (h j hj).imp id fun ⟨p, hp, hc⟩ => ⟨p, hp, hC _ hc⟩

theorem UsedProv.insert_of_findMatch {courses : List ParsedCourse}
    {C : List String} {u : Finset ℕ} {code : String} {j : ℕ} {p : ParsedCourse}
    (h : findMatch courses u code = some (j, p)) (hc : code ∈ C) :
    UsedProv courses C u (insert j u) := by
  intro k hk
  rcases Finset.mem_insert.1 hk with rfl | hk
  · obtain ⟨hget, _, hcode, _⟩ := findMatch_eq_some h
    exact Or.inr ⟨p, hget, by rwa [hcode]⟩
  · exact Or.inl hk

theorem UsedProv.foldl {σ α : Type} {courses : List ParsedCourse} {C : List String}
    (usedOf : σ → Finset ℕ) (step : σ → α → σ) :
    ∀ (xs : List α) (s : σ),
      (∀ t x, x ∈ xs → UsedProv courses C (usedOf t) (usedOf (step t x))) →
      UsedProv courses C (usedOf s) (usedOf (xs.foldl step s)) := by
  intro xs
  induction xs with
  | nil => intro s _; exact UsedProv.refl
  | cons x rest ih =>
    intro s h
    rw [List.foldl_cons]
    exact (h s x (by simp)).trans
      (ih (step s x) fun t y hy => h t y (List.mem_cons_of_mem x hy))

theorem mem_foldl_insert :
    ∀ (idxs : List ℕ) (u : Finset ℕ) (j : ℕ),
      (j ∈ idxs.foldl (fun u i => insert i u) u) ↔ j ∈ u ∨ j ∈ idxs := by
  intro idxs
  induction idxs with
  | nil => simp
  | cons i rest ih =>
    intro u j
    rw [List.foldl_cons, ih]
    simp [Finset.mem_insert]
    tauto

/-! ## Provenance of the GenEd used set -/

theorem auditChooseAllCourses_prov {courses : List ParsedCourse} {nm : String}
    {C : List String} :
    ∀ (cs : List GenEdCourse) (s : GEState),
      (∀ c ∈ cs, GenEdCourse.code c ∈ C) →
      UsedProv courses C s.used (auditChooseAllCourses courses nm cs s).used := by
  intro cs
  induction cs with
  | nil => intro s _; exact UsedProv.refl
  | cons c rest ih =>
    intro s h
    rw [auditChooseAllCourses]
    cases hm : findMatch courses s.used c.code with
    | some jp =>
      obtain ⟨j, p⟩ := jp
      exact (UsedProv.insert_of_findMatch hm (h c (by simp))).trans
        (ih _ fun c2 hc2 => h c2 (List.mem_cons_of_mem c hc2))
    | none =>
      exact ih _ fun c2 hc2 => h c2 (List.mem_cons_of_mem c hc2)

theorem chooseOneFind_eq_some {courses : List ParsedCourse} {used : Finset ℕ} :
    ∀ (cs : List GenEdCourse) (c : GenEdCourse) (j : ℕ) (mc : ℚ),
      chooseOneFind courses used cs = some (c, j, mc) →
      c ∈ cs ∧ ∃ p, findMatch courses used c.code = some (j, p) ∧
        mc = matched_course_credits c.credits p := by
  intro cs
  induction cs with
  | nil => intro c j mc h; simp [chooseOneFind] at h
  | cons c0 rest ih =>
    intro c j mc h
    rw [chooseOneFind] at h
    cases hm : findMatch courses used c0.code with
    | some jp =>
      obtain ⟨j0, p0⟩ := jp
      simp only [hm, Option.some.injEq, Prod.mk.injEq] at h
      obtain ⟨rfl, rfl, rfl⟩ := h
      exact ⟨by simp, p0, hm, rfl⟩
    | none =>
      simp only [hm] at h
      exact (ih c j mc h).imp (List.mem_cons_of_mem c0) id

theorem auditStrandChooseOne_prov {courses : List ParsedCourse}
    {C : List String} (s : GEState) (strand : GenEdStrand)
    (h : ∀ c ∈ strand.courses.getD [], GenEdCourse.code c ∈ C) :
    UsedProv courses C s.used (auditStrandChooseOne courses s strand).used := by
  cases hcs : strand.courses with
  | none => simp only [auditStrandChooseOne, hcs]; exact UsedProv.refl
  | some cs =>
    cases hf : chooseOneFind courses s.used cs with
    | some r =>
      obtain ⟨c, j, mc⟩ := r
      obtain ⟨hcmem, p, hm, _⟩ := chooseOneFind_eq_some cs c j mc hf
      simp only [auditStrandChooseOne, hcs, hf]
      exact UsedProv.insert_of_findMatch hm (by
        have := h c
        rw [hcs] at this
        exact this (by simpa using hcmem))
    | none =>
      simp only [auditStrandChooseOne, hcs, hf]
      exact UsedProv.refl

theorem auditSubGroupCourses_prov {courses : List ParsedCourse} {required : ℚ}
    {C : List String} :
    ∀ (cs : List GenEdCourse) (st : ℚ × ℚ × Finset ℕ),
      (∀ c ∈ cs, GenEdCourse.code c ∈ C) →
      UsedProv courses C st.2.2 (auditSubGroupCourses courses required cs st).2.2 := by
  intro cs
  induction cs with
  | nil => intro st _; exact UsedProv.refl
  | cons c rest ih =>
    intro st h
    obtain ⟨completed, subCredits, used⟩ := st
    rw [auditSubGroupCourses]
    split
    · exact UsedProv.refl
    · cases hm : findMatch courses used c.code with
      | some jp =>
        obtain ⟨j, p⟩ := jp
        exact (UsedProv.insert_of_findMatch hm (h c (by simp))).trans
          (ih _ fun c2 hc2 => h c2 (List.mem_cons_of_mem c hc2))
      | none =>
        exact ih _ fun c2 hc2 => h c2 (List.mem_cons_of_mem c hc2)

theorem auditSubGroup_prov {courses : List ParsedCourse} {nm : String}
    {C : List String} (s : GEState) (sg : GenEdSubGroup)
    (h : ∀ c ∈ sg.courses, GenEdCourse.code c ∈ C) :
    UsedProv courses C s.used (auditSubGroup courses nm s sg).used := by
  rcases hscan : auditSubGroupCourses courses sg.required_credits sg.courses
    (s.credits, 0, s.used) with ⟨completed, subCredits, usedv⟩
  have hp := @auditSubGroupCourses_prov courses sg.required_credits C
    sg.courses (s.credits, 0, s.used) h
  rw [hscan] at hp
  simp only at hp
  simp only [auditSubGroup, hscan]
  split
  · exact hp
  · exact hp

theorem auditStrandSubGroups_prov {courses : List ParsedCourse}
    {C : List String} (s : GEState) (strand : GenEdStrand)
    (h : ∀ sg ∈ strand.sub_groups.getD [], ∀ c ∈ sg.courses, GenEdCourse.code c ∈ C) :
    UsedProv courses C s.used (auditStrandSubGroups courses s strand).used := by
  rw [auditStrandSubGroups]
  cases hsg : strand.sub_groups with
  | none => exact UsedProv.refl
  | some sgs =>
    refine UsedProv.foldl (σ := GEState) (fun t => t.used)
      (auditSubGroup courses strand.name) sgs s fun t sg hmem => ?_
    refine auditSubGroup_prov t sg fun c hc => h sg ?_ c hc
    rw [hsg]
    simpa using hmem

theorem seqPairScan_prov {courses : List ParsedCourse} {used : Finset ℕ}
    {scs : List GenEdCourse} :
    ∀ (pair : List String) (acc : List ℕ × ℚ),
      (∀ j ∈ acc.1, ∃ p, courses.get? j = some p ∧
        p.code ∈ scs.map GenEdCourse.code) →
      ∀ j ∈ (pair.foldl
        (fun acc code =>
          match scs.find? (fun c => c.code == code) with
          | some defCourse =>
            match findMatch courses used code with
            | some (idx, parsed) =>
              (acc.1 ++ [idx], acc.2 + matched_course_credits defCourse.credits parsed)
            | none => acc
          | none => acc)
        acc).1,
        ∃ p, courses.get? j = some p ∧ p.code ∈ scs.map GenEdCourse.code := by
  intro pair
  induction pair with
  | nil => intro acc hacc j hj; exact hacc j hj
  | cons code rest ih =>
    intro acc hacc
    rw [List.foldl_cons]
    refine ih _ ?_
    cases hd : scs.find? (fun c => c.code == code) with
    | none => simpa [hd] using hacc
    | some defCourse =>
      cases hm : findMatch courses used code with
      | none => simpa [hd, hm] using hacc
      | some jp =>
        obtain ⟨idx, parsed⟩ := jp
        simp only [hd, hm]
        intro j hj
        rcases List.mem_append.1 hj with hj | hj
        · exact hacc j hj
        · obtain ⟨hget, _, hcode, _⟩ := findMatch_eq_some hm
          have hjidx : j = idx := by simpa using hj
          subst hjidx
          refine ⟨parsed, hget, ?_⟩
          have : defCourse ∈ scs ∧ defCourse.code == code := by
            have h1 := List.find?_some hd
            have h2 := List.mem_of_find?_eq_some hd
            exact ⟨h2, h1⟩
          rcases this with ⟨hmem, hbeq⟩
          have : defCourse.code = code := by simpa using hbeq
          rw [hcode, ← this]
          exact List.mem_map_of_mem GenEdCourse.code hmem

theorem seqPairScan_prov' {courses : List ParsedCourse} {used : Finset ℕ}
    {scs : List GenEdCourse} (pair : List String) :
    ∀ j ∈ (seqPairScan courses used scs pair).1,
      ∃ p, courses.get? j = some p ∧ p.code ∈ scs.map GenEdCourse.code := by
  rw [seqPairScan]
  exact seqPairScan_prov pair ([], 0) (by simp)

theorem seqPairLoop_prov {courses : List ParsedCourse} {used : Finset ℕ}
    {scs : List GenEdCourse} :
    ∀ (groups : List (List String)) (idxs : List ℕ) (cr : ℚ),
      seqPairLoop courses used scs groups = some (idxs, cr) →
      ∀ j ∈ idxs, ∃ p, courses.get? j = some p ∧
        p.code ∈ scs.map GenEdCourse.code := by
  intro groups
  induction groups with
  | nil => intro idxs cr h; simp [seqPairLoop] at h
  | cons pair rest ih =>
    intro idxs cr h
    rw [seqPairLoop] at h
    split at h
    · split at h
      · injection h with h2
        obtain ⟨h3, _⟩ := Prod.mk.injEq .. |>.mp h2
        subst h3
        exact seqPairScan_prov' pair
      · exact ih idxs cr h
    · exact ih idxs cr h


theorem auditStrandSeqPair_prov {courses : List ParsedCourse}
    {C : List String} (s : GEState) (strand : GenEdStrand)
    (h : ∀ c ∈ strand.courses.getD [], GenEdCourse.code c ∈ C) :
    UsedProv courses C s.used (auditStrandSeqPair courses s strand).used := by
  cases hcs : strand.courses with
  | none =>
    cases hsq : strand.sequence_groups with
    | none =>
      simp only [auditStrandSeqPair, hcs, hsq]
      exact UsedProv.refl
    | some groups =>
      simp only [auditStrandSeqPair, hcs, hsq]
      exact UsedProv.refl
  | some scs =>
    cases hsq : strand.sequence_groups with
    | none =>
      simp only [auditStrandSeqPair, hcs, hsq]
      exact UsedProv.refl
    | some groups =>
      cases hl : seqPairLoop courses s.used scs groups with
      | none =>
        simp only [auditStrandSeqPair, hcs, hsq, hl]
        exact UsedProv.refl
      | some r =>
        obtain ⟨idxs, cr⟩ := r
        simp only [auditStrandSeqPair, hcs, hsq, hl]
        intro j hj
        rw [mem_foldl_insert] at hj
        rcases hj with hj | hj
        · exact Or.inl hj
        · obtain ⟨p, hget, hcode⟩ := seqPairLoop_prov groups idxs cr hl j hj
          refine Or.inr ⟨p, hget, ?_⟩
          rcases List.mem_map.1 hcode with ⟨c, hcmem, hceq⟩
          rw [← hceq]
          refine h c ?_
          rw [hcs]
          simpa using hcmem

theorem auditStrand_prov {courses : List ParsedCourse} (s : GEState)
    (strand : GenEdStrand) :
    UsedProv courses (genEdStrandCodes strand) s.used
      (auditStrand courses s strand).used := by
  rw [auditStrand]
  have hcourses : ∀ c ∈ strand.courses.getD [],
      GenEdCourse.code c ∈ genEdStrandCodes strand := by
    intro c hc
    rw [genEdStrandCodes]
    exact List.mem_append_left _ (List.mem_map_of_mem GenEdCourse.code hc)
  have hsubs : ∀ sg ∈ strand.sub_groups.getD [], ∀ c ∈ sg.courses,
      GenEdCourse.code c ∈ genEdStrandCodes strand := by
    intro sg hsg c hc
    rw [genEdStrandCodes]
    refine List.mem_append_right _ ?_
    rw [List.mem_flatten]
    exact ⟨sg.courses.map GenEdCourse.code, List.mem_map_of_mem _ hsg,
      List.mem_map_of_mem GenEdCourse.code hc⟩
  split
  · exact auditStrandSeqPair_prov s strand hcourses
  · split
    · exact auditStrandChooseOne_prov s strand hcourses
    · split
      · exact auditStrandSubGroups_prov s strand hsubs
      · rw [auditStrandChooseAll]
        cases hcs : strand.courses with
        | none => exact UsedProv.refl
        | some cs =>
          refine auditChooseAllCourses_prov cs s fun c hc => ?_
          refine hcourses c ?_
          rw [hcs]
          simpa using hc

theorem auditElectiveSubCatCourses_prov {courses : List ParsedCourse}
    {C : List String} :
    ∀ (cs : List GenEdCourse) (st : ℚ × ℚ × ℚ × Finset ℕ),
      (∀ c ∈ cs, GenEdCourse.code c ∈ C) →
      UsedProv courses C st.2.2.2 (auditElectiveSubCatCourses courses cs st).2.2.2 := by
  intro cs
  induction cs with
  | nil => intro st _; exact UsedProv.refl
  | cons c rest ih =>
    intro st h
    obtain ⟨completed, electiveTotal, subCatCredits, used⟩ := st
    rw [auditElectiveSubCatCourses]
    cases hm : findMatch courses used c.code with
    | some jp =>
      obtain ⟨j, p⟩ := jp
      exact (UsedProv.insert_of_findMatch hm (h c (by simp))).trans
        (ih _ fun c2 hc2 => h c2 (List.mem_cons_of_mem c hc2))
    | none =>
      exact ih _ fun c2 hc2 => h c2 (List.mem_cons_of_mem c hc2)

theorem auditElectiveSubCat_prov {courses : List ParsedCourse}
    {C : List String} (st : GEState × ℚ) (sc : GenEdElectiveSubCategory)
    (h : ∀ c ∈ sc.courses, GenEdCourse.code c ∈ C) :
    UsedProv courses C st.1.used (auditElectiveSubCat courses st sc).1.used := by
  have hp := @auditElectiveSubCatCourses_prov courses C sc.courses
    (st.1.credits, st.2, 0, st.1.used) h
  simp only at hp
  simp only [auditElectiveSubCat]
  split
  · exact hp
  · exact hp

theorem genEdStrandCodes_subset {g : GenEdCurriculum} {strand : GenEdStrand}
    (h : strand ∈ g.strands) :
    ∀ x ∈ genEdStrandCodes strand, x ∈ genEdCodes g := by
  intro x hx
  rw [genEdCodes]
  exact List.mem_append_left _
    (List.mem_flatten.2 ⟨_, List.mem_map_of_mem genEdStrandCodes h, hx⟩)

theorem genEdSubCatCodes_subset {g : GenEdCurriculum}
    {sc : GenEdElectiveSubCategory} (h : sc ∈ g.electives.sub_categories) :
    ∀ c ∈ sc.courses, GenEdCourse.code c ∈ genEdCodes g := by
  intro c hc
  rw [genEdCodes]
  refine List.mem_append_right _ ?_
  rw [List.mem_flatten]
  exact ⟨sc.courses.map GenEdCourse.code,
    List.mem_map_of_mem _ h, List.mem_map_of_mem GenEdCourse.code hc⟩

theorem audit_gen_ed_used_eq (courses : List ParsedCourse) (g : GenEdCurriculum) :
    (audit_gen_ed courses g).2.2 = (genEdElectivesPhase courses g).1.used := by
  simp only [audit_gen_ed]
  split
  · split
    · split
      · rfl
      · rfl
    · rfl
  · split
    · split
      · rfl
      · rfl
    · rfl

theorem audit_gen_ed_used_prov (courses : List ParsedCourse) (g : GenEdCurriculum) :
    ∀ j ∈ (audit_gen_ed courses g).2.2,
      ∃ p, courses.get? j = some p ∧ p.code ∈ genEdCodes g := by
  intro j hj
  rw [audit_gen_ed_used_eq] at hj
  have h1 : UsedProv courses (genEdCodes g) (∅ : Finset ℕ)
      (genEdStrandsPhase courses g).used := by
    rw [genEdStrandsPhase]
    exact UsedProv.foldl (fun t : GEState => t.used) (auditStrand courses) g.strands
      ⟨0, [], ∅⟩ fun t strand hmem =>
        (auditStrand_prov t strand).mono (genEdStrandCodes_subset hmem)
  have h2 : UsedProv courses (genEdCodes g) (genEdStrandsPhase courses g).used
      (genEdElectivesPhase courses g).1.used := by
    rw [genEdElectivesPhase]
    exact UsedProv.foldl (σ := GEState × ℚ) (fun t => t.1.used)
      (auditElectiveSubCat courses) g.electives.sub_categories
      (genEdStrandsPhase courses g, 0) fun t sc hmem =>
        auditElectiveSubCat_prov t sc (genEdSubCatCodes_subset hmem)
  rcases (h1.trans h2) j hj with hc | hex
  · exact absurd hc (Finset.not_mem_empty j)
  · exact hex

/-! ## Provenance of the Major used set -/

theorem auditMajorCourseList_prov {courses : List ParsedCourse} {cat : String}
    {C : List String} :
    ∀ (cs : List MajorCourse) (s : MAState),
      (∀ c ∈ cs, MajorCourse.code c ∈ C) →
      UsedProv courses C s.used (auditMajorCourseList courses cat cs s).used := by
  intro cs
  induction cs with
  | nil => intro s _; exact UsedProv.refl
  | cons c rest ih =>
    intro s h
    rw [auditMajorCourseList]
    cases hm : findMatch courses s.used c.code with
    | some jp =>
      obtain ⟨j, p⟩ := jp
      exact (UsedProv.insert_of_findMatch hm (h c (by simp))).trans
        (ih _ fun c2 hc2 => h c2 (List.mem_cons_of_mem c hc2))
    | none =>
      exact ih _ fun c2 hc2 => h c2 (List.mem_cons_of_mem c hc2)

theorem capstoneFind_eq_some {courses : List ParsedCourse} {used : Finset ℕ} :
    ∀ (os : List MajorCourse) (j : ℕ) (mc : ℚ),
      capstoneFind courses used os = some (j, mc) →
      ∃ o ∈ os, ∃ p, findMatch courses used o.code = some (j, p) ∧
        mc = matched_course_credits o.credits p := by
  intro os
  induction os with
  | nil => intro j mc h; simp [capstoneFind] at h
  | cons o rest ih =>
    intro j mc h
    rw [capstoneFind] at h
    cases hm : findMatch courses used o.code with
    | some jp =>
      obtain ⟨j0, p0⟩ := jp
      simp only [hm, Option.some.injEq, Prod.mk.injEq] at h
      obtain ⟨rfl, rfl⟩ := h
      exact ⟨o, by simp, p0, hm, rfl⟩
    | none =>
      simp only [hm] at h
      obtain ⟨o2, ho2, hrest⟩ := ih j mc h
      exact ⟨o2, List.mem_cons_of_mem o ho2, hrest⟩

theorem majorPreElectives_prov (courses : List ParsedCourse) (m : MajorCurriculum) :
    UsedProv courses (majorCodes m) (∅ : Finset ℕ) (majorPreElectives courses m).used := by
  have hbasic : ∀ c ∈ m.basic_science.courses, MajorCourse.code c ∈ majorCodes m := by
    intro c hc
    simp only [majorCodes, List.mem_append]
    exact Or.inl (Or.inl (Or.inl (Or.inl (List.mem_map_of_mem MajorCourse.code hc))))
  have hcore : ∀ c ∈ m.core_courses.courses, MajorCourse.code c ∈ majorCodes m := by
    intro c hc
    simp only [majorCodes, List.mem_append]
    exact Or.inl (Or.inl (Or.inl (Or.inr (List.mem_map_of_mem MajorCourse.code hc))))
  have hcap : ∀ o ∈ m.capstone.options, MajorCourse.code o ∈ majorCodes m := by
    intro o ho
    simp only [majorCodes, List.mem_append]
    exact Or.inl (Or.inl (Or.inr (List.mem_map_of_mem MajorCourse.code ho)))
  have h1 := @auditMajorCourseList_prov courses "Basic Science" (majorCodes m)
    m.basic_science.courses ⟨0, 0, [], ∅⟩ hbasic
  have h2 := @auditMajorCourseList_prov courses "Core Courses" (majorCodes m)
    m.core_courses.courses
    (auditMajorCourseList courses "Basic Science" m.basic_science.courses ⟨0, 0, [], ∅⟩) hcore
  refine (h1.trans h2).trans ?_
  simp only [majorPreElectives]
  cases hcapf : capstoneFind courses
      (auditMajorCourseList courses "Core Courses" m.core_courses.courses
        (auditMajorCourseList courses "Basic Science" m.basic_science.courses
          ⟨0, 0, [], ∅⟩)).used m.capstone.options with
  | some r =>
    obtain ⟨j, mc⟩ := r
    obtain ⟨o, ho, p, hm, _⟩ := capstoneFind_eq_some m.capstone.options j mc hcapf
    exact UsedProv.insert_of_findMatch hm (hcap o ho)
  | none => exact UsedProv.refl

theorem auditClusterCourses_prov {courses : List ParsedCourse} {C : List String} :
    ∀ (cs : List MajorCourse) (st : ℚ × Finset ℕ × ℕ),
      (∀ c ∈ cs, MajorCourse.code c ∈ C) →
      UsedProv courses C st.2.1 (auditClusterCourses courses cs st).2.1 := by
  intro cs
  induction cs with
  | nil => intro st _; exact UsedProv.refl
  | cons c rest ih =>
    intro st h
    obtain ⟨ec, used, found⟩ := st
    cases hm : findMatch courses used c.code with
    | some jp =>
      obtain ⟨j, p⟩ := jp
      simp only [auditClusterCourses, hm]
      exact (UsedProv.insert_of_findMatch hm (h c (by simp))).trans
        (ih _ fun c2 hc2 => h c2 (List.mem_cons_of_mem c hc2))
    | none =>
      simp only [auditClusterCourses, hm]
      split
      · exact ih _ fun c2 hc2 => h c2 (List.mem_cons_of_mem c hc2)
      · exact ih _ fun c2 hc2 => h c2 (List.mem_cons_of_mem c hc2)

theorem auditCluster_prov {courses : List ParsedCourse} {C : List String}
    (st : ℚ × Finset ℕ × ℕ) (cluster : MajorCluster)
    (h : ∀ c ∈ cluster.courses, MajorCourse.code c ∈ C) :
    UsedProv courses C st.2.1 (auditCluster courses st cluster).2.1 := by
  have hp := @auditClusterCourses_prov courses C cluster.courses
    (st.1, st.2.1, 0) h
  simp only at hp
  simp only [auditCluster]
  split
  · exact hp
  · exact hp

theorem auditDomain_prov {courses : List ParsedCourse} {C : List String}
    (st : ℚ × Finset ℕ × ℕ) (domain : MajorDomain)
    (h : ∀ cl ∈ domain.clusters, ∀ c ∈ cl.courses, MajorCourse.code c ∈ C) :
    UsedProv courses C st.2.1 (auditDomain courses st domain).2.1 := by
  rw [auditDomain]
  exact UsedProv.foldl (σ := ℚ × Finset ℕ × ℕ) (fun t => t.2.1)
    (auditCluster courses) domain.clusters st
    fun t cl hmem => auditCluster_prov t cl (h cl hmem)

theorem majorClusterResult_prov (courses : List ParsedCourse) (m : MajorCurriculum) :
    UsedProv courses (majorCodes m) (majorPreElectives courses m).used
      (majorClusterResult courses m).2.1 := by
  rw [majorClusterResult]
  refine UsedProv.foldl (σ := ℚ × Finset ℕ × ℕ) (fun t => t.2.1)
    (auditDomain courses) m.electives.domains
    ((majorPreElectives courses m).elective_credits, (majorPreElectives courses m).used, 0)
    fun t d hd => auditDomain_prov t d fun cl hcl c hc => ?_
  simp only [majorCodes, List.mem_append]
  refine Or.inl (Or.inr ?_)
  rw [List.mem_flatten]
  refine ⟨(d.clusters.map fun cl2 => cl2.courses.map MajorCourse.code).flatten,
    List.mem_map_of_mem _ hd, ?_⟩
  rw [List.mem_flatten]
  exact ⟨cl.courses.map MajorCourse.code, List.mem_map_of_mem _ hcl,
    List.mem_map_of_mem MajorCourse.code hc⟩

theorem auditOthersCourse_prov {courses : List ParsedCourse} {C : List String}
    (course : MajorCourse) (hc : course.code ∈ C) :
    ∀ (l : List ParsedCourse) (i : ℕ) (st : ℚ × Finset ℕ),
      (∀ k, l.get? k = courses.get? (i + k)) →
      UsedProv courses C st.2 (auditOthersCourse course i l st).2 := by
  intro l
  induction l with
  | nil => intro i st _; exact UsedProv.refl
  | cons p rest ih =>
    intro i st hget
    obtain ⟨ec, used⟩ := st
    rw [auditOthersCourse]
    have hrest : ∀ k, rest.get? k = courses.get? (i + 1 + k) := by
      intro k
      have := hget (k + 1)
      simpa [Nat.add_assoc, Nat.add_comm 1 k] using this
    split
    · rename_i hcond
      refine UsedProv.trans ?_ (ih (i + 1) _ hrest)
      intro j hj
      rcases Finset.mem_insert.1 hj with rfl | hj2
      · refine Or.inr ⟨p, ?_, ?_⟩
        · have := hget 0
          simpa using this.symm
        · rw [hcond.2.1]; exact hc
      · exact Or.inl hj2
    · exact ih (i + 1) _ hrest

theorem auditOthers_prov {courses : List ParsedCourse} {C : List String}
    (others : List MajorCourse) (s : MAState)
    (h : ∀ c ∈ others, MajorCourse.code c ∈ C) :
    UsedProv courses C s.used (auditOthers courses others s).used := by
  rw [auditOthers]
  refine UsedProv.foldl (σ := MAState) (fun t => t.used) _ others s
    fun t course hmem => ?_
  exact auditOthersCourse_prov course (h course hmem) courses 0
    (t.elective_credits, t.used) (fun k => by simp)

theorem audit_major_used_prov (courses : List ParsedCourse) (m : MajorCurriculum) :
    ∀ j ∈ (audit_major courses m).2.2.2,
      ∃ p, courses.get? j = some p ∧ p.code ∈ majorCodes m := by
  have hothers : ∀ c ∈ m.electives.others, MajorCourse.code c ∈ majorCodes m := by
    intro c hc
    simp only [majorCodes, List.mem_append]
    exact Or.inr (List.mem_map_of_mem MajorCourse.code hc)
  intro j hj
  have hchain : UsedProv courses (majorCodes m) (∅ : Finset ℕ)
      (audit_major courses m).2.2.2 := by
    refine ((majorPreElectives_prov courses m).trans
      (majorClusterResult_prov courses m)).trans ?_
    simp only [audit_major]
    split
    · exact auditOthers_prov m.electives.others _ hothers
    · exact auditOthers_prov m.electives.others _ hothers
  rcases hchain j hj with hc | hex
  · exact absurd hc (Finset.not_mem_empty j)
  · exact hex

/-! ## Free-elective bookkeeping lemmas -/

theorem dedupeFirstByKey_subset :
    ∀ (l : List (ℕ × ParsedCourse)) (seen : List String) (ip : ℕ × ParsedCourse),
      ip ∈ dedupeFirstByKey l seen → ip ∈ l := by
  intro l
  induction l with
  | nil => intro seen ip h; simp [dedupeFirstByKey] at h
  | cons q rest ih =>
    intro seen ip h
    rw [dedupeFirstByKey] at h
    split at h
    · exact List.mem_cons_of_mem q (ih _ ip h)
    · rcases List.mem_cons.1 h with rfl | h2
      · simp
      · exact List.mem_cons_of_mem q (ih _ ip h2)

theorem freeEligibleFrom_not_used {used : Finset ℕ} :
    ∀ (l : List ParsedCourse) (i : ℕ) (ip : ℕ × ParsedCourse),
      ip ∈ freeEligibleFrom used i l → ip.1 ∉ used := by
  intro l
  induction l with
  | nil => intro i ip h; simp [freeEligibleFrom] at h
  | cons p rest ih =>
    intro i ip h
    rw [freeEligibleFrom] at h
    split at h
    · rename_i hcond
      rcases List.mem_cons.1 h with rfl | h2
      · exact hcond.1
      · exact ih _ ip h2
    · exact ih _ ip h

set_option maxRecDepth 40000 in
/-- The code sets of the two shipped curricula are disjoint: no course code
appears both in the GenEd curriculum and in the Major curriculum. -/
theorem concrete_codes_disjoint :
    ∀ c ∈ genEdCodes get_gen_ed_curriculum, c ∉ majorCodes get_major_curriculum := by
  decide

/-- C1: for every input record sequence, the used-index set returned by
`audit_gen_ed` and the used-index set returned by `audit_major` (invoked as
in the aggregator: on the full record sequence, with the shipped curricula)
are disjoint, and every record counted as a free elective lies outside both,
so no record index appears in more than one of the GenEd-used set, the
Major-used set and the free-elective-counted set. -/
theorem C1_used_sets_pairwise_disjoint (courses : List ParsedCourse) :
    (∀ j ∈ (audit_gen_ed courses get_gen_ed_curriculum).2.2,
        j ∉ (audit_major courses get_major_curriculum).2.2.2) ∧
    (∀ ip ∈ freeKept courses
        ((audit_gen_ed courses get_gen_ed_curriculum).2.2 ∪
          (audit_major courses get_major_curriculum).2.2.2),
      ip.1 ∉ (audit_gen_ed courses get_gen_ed_curriculum).2.2 ∧
        ip.1 ∉ (audit_major courses get_major_curriculum).2.2.2) := by
  constructor
  · intro j hg hm
    obtain ⟨p1, hget1, hcode1⟩ := audit_gen_ed_used_prov courses get_gen_ed_curriculum j hg
    obtain ⟨p2, hget2, hcode2⟩ := audit_major_used_prov courses get_major_curriculum j hm
    rw [hget1] at hget2
    injection hget2 with hp
    subst hp
    exact concrete_codes_disjoint p1.code hcode1 hcode2
  · intro ip hip
    have h1 := freeEligibleFrom_not_used courses 0 ip (dedupeFirstByKey_subset _ [] ip hip)
    rw [Finset.mem_union] at h1
    push_neg at h1
    exact h1

/-! ## Aggregator suppression policy (C4) -/

/-- C4: in the aggregator, once aggregate GenEd collected credits reach the
GenEd total required credits, every missing entry whose category is
"General Education" is dropped from the final missing list, while entries
for Basic Science, Core Courses and Capstone are never dropped by this
policy regardless of any credit totals; and the aggregator's final missing
list is exactly the suppression policy applied to the two allocators'
combined missing lists. -/
theorem C4_gen_ed_missing_suppression :
    (∀ (missing : List MissingCourse) (credits required : ℚ),
      (required ≤ credits →
        ∀ m ∈ applyMissingSuppression missing credits required,
          m.category ≠ "General Education") ∧
      (∀ m ∈ missing,
        (m.category = "Basic Science" ∨ m.category = "Core Courses" ∨
          m.category = "Capstone") →
        m ∈ applyMissingSuppression missing credits required)) ∧
    (∀ (courses : List ParsedCourse) (g : GenEdCurriculum) (mj : MajorCurriculum),
      (runAudit courses g mj).missing_subjects =
        applyMissingSuppression
          ((audit_gen_ed courses g).2.1 ++ (audit_major courses mj).2.2.1)
          (audit_gen_ed courses g).1 g.total_required_credits) := by
  constructor
  · intro missing credits required
    constructor
    · intro hreq m hm hcat
      have hk := List.of_mem_filter hm
      rw [keepMissing] at hk
      rw [if_pos hcat] at hk
      exact absurd (of_decide_eq_true hk) (not_lt.2 hreq)
    · intro m hm hcat
      refine List.mem_filter.2 ⟨hm, ?_⟩
      rw [keepMissing, if_neg]
      rcases hcat with h | h | h <;> simp [h]
  · intro courses g mj
    rfl

/-- Witness for C4 at a concrete missing list and credit totals. -/
theorem C4_gen_ed_missing_suppression_witness :
    (∀ m ∈ applyMissingSuppression
        [⟨"General Education", "ge entry"⟩, ⟨"Capstone", "cap entry"⟩] 30 30,
      MissingCourse.category m ≠ "General Education") ∧
    (⟨"Capstone", "cap entry"⟩ : MissingCourse) ∈ applyMissingSuppression
        [⟨"General Education", "ge entry"⟩, ⟨"Capstone", "cap entry"⟩] 30 30 :=
  ⟨(C4_gen_ed_missing_suppression.1
      [⟨"General Education", "ge entry"⟩, ⟨"Capstone", "cap entry"⟩] 30 30).1 (by norm_num),
   (C4_gen_ed_missing_suppression.1
      [⟨"General Education", "ge entry"⟩, ⟨"Capstone", "cap entry"⟩] 30 30).2
      ⟨"Capstone", "cap entry"⟩ (by simp) (Or.inr (Or.inr rfl))⟩

/-! ## Determinism (C9) -/

/-- C9: the audit is deterministic — on equal record sequences, equal
curricula and equal used sets, `audit_gen_ed`, `audit_major`,
`calculate_free_electives` and the full aggregation `runAudit` return
identical credits, missing lists, used-index sets and results. -/
theorem C9_audit_deterministic (courses1 courses2 : List ParsedCourse)
    (g1 g2 : GenEdCurriculum) (m1 m2 : MajorCurriculum) (u1 u2 : Finset ℕ)
    (hc : courses1 = courses2) (hg : g1 = g2) (hm : m1 = m2) (hu : u1 = u2) :
    audit_gen_ed courses1 g1 = audit_gen_ed courses2 g2 ∧
    audit_major courses1 m1 = audit_major courses2 m2 ∧
    calculate_free_electives courses1 u1 = calculate_free_electives courses2 u2 ∧
    runAudit courses1 g1 m1 = runAudit courses2 g2 m2 := by
  subst hc; subst hg; subst hm; subst hu
  exact ⟨rfl, rfl, rfl, rfl⟩

/-- Witness for C9 at the shipped curricula and a one-record transcript. -/
theorem C9_audit_deterministic_witness :
    runAudit [⟨"322-101", "Calculus I", "A", 3⟩] get_gen_ed_curriculum
        get_major_curriculum =
      runAudit [⟨"322-101", "Calculus I", "A", 3⟩] get_gen_ed_curriculum
        get_major_curriculum :=
  (C9_audit_deterministic [⟨"322-101", "Calculus I", "A", 3⟩]
    [⟨"322-101", "Calculus I", "A", 3⟩] get_gen_ed_curriculum get_gen_ed_curriculum
    get_major_curriculum get_major_curriculum ∅ ∅ rfl rfl rfl rfl).2.2.2

/-! ## Unrecognized selection rules fall back to choose-all (C10) -/

/-- C10: a strand whose selection rule is absent or is any string other than
the three recognized rules is processed with choose-all semantics — every
listed course is matched and an unmatched course emits one missing entry —
and the unrecognized rule is never rejected, skipped or reported. -/
theorem C10_unrecognized_rule_is_choose_all (courses : List ParsedCourse)
    (s : GEState) (strand : GenEdStrand)
    (h : ∀ r, strand.selection_rule = some r →
      r ≠ "choose_sequential_pair" ∧ r ≠ "choose_one" ∧ r ≠ "choose_all_sub_groups") :
    auditStrand courses s strand = auditStrandChooseAll courses s strand ∧
    (∀ scs, strand.courses = some scs →
      auditStrandChooseAll courses s strand =
        auditChooseAllCourses courses strand.name scs s) ∧
    (∀ (nm : String) (c : GenEdCourse) (rest : List GenEdCourse) (s2 : GEState)
        (idx : ℕ) (parsed : ParsedCourse),
      findMatch courses s2.used c.code = some (idx, parsed) →
      auditChooseAllCourses courses nm (c :: rest) s2 =
        auditChooseAllCourses courses nm rest
          { s2 with credits := s2.credits + matched_course_credits c.credits parsed,
                    used := insert idx s2.used }) ∧
    (∀ (nm : String) (c : GenEdCourse) (rest : List GenEdCourse) (s2 : GEState),
      findMatch courses s2.used c.code = none →
      auditChooseAllCourses courses nm (c :: rest) s2 =
        auditChooseAllCourses courses nm rest
          { s2 with missing := s2.missing ++
              [⟨"General Education", nm ++ ": " ++ c.code ++ " - " ++ c.name⟩] }) := by
  refine ⟨?_, ?_, ?_, ?_⟩
  · rw [auditStrand]
    cases hsel : strand.selection_rule with
    | none => simp
    | some r =>
      obtain ⟨h1, h2, h3⟩ := h r hsel
      simp [h1, h2, h3]
  · intro scs hscs
    rw [auditStrandChooseAll, hscs]
  · intro nm c rest s2 idx parsed hm
    rw [auditChooseAllCourses]
    simp only [hm]
  · intro nm c rest s2 hm
    rw [auditChooseAllCourses]
    simp only [hm]

/-- Witness for C10: a strand carrying the unrecognized rule string
"choose_two" is processed exactly like a choose-all strand. -/
theorem C10_unrecognized_rule_is_choose_all_witness :
    auditStrand [] ⟨0, [], ∅⟩
        ⟨1, "Mystery", 2, none, some [⟨"000-001", "Mystery Course", 2⟩],
          some "choose_two", none⟩ =
      auditStrandChooseAll [] ⟨0, [], ∅⟩
        ⟨1, "Mystery", 2, none, some [⟨"000-001", "Mystery Course", 2⟩],
          some "choose_two", none⟩ :=
  (C10_unrecognized_rule_is_choose_all [] ⟨0, [], ∅⟩
    ⟨1, "Mystery", 2, none, some [⟨"000-001", "Mystery Course", 2⟩],
      some "choose_two", none⟩
    (by intro r hr; injection hr with hr2; subst hr2; refine ⟨?_, ?_, ?_⟩ <;> decide)).1

/-! ## Characterization of the free-elective collector (C2, C5) -/

theorem freeElectivesGo_eq {used : Finset ℕ} :
    ∀ (l : List ParsedCourse) (i : ℕ) (credits : ℚ) (list seen : List String),
      freeElectivesGo used i l credits list seen =
        (credits + ((dedupeFirstByKey (freeEligibleFrom used i l) seen).map
            fun ip => ip.2.parsed_credit).sum,
         list ++ (dedupeFirstByKey (freeEligibleFrom used i l) seen).map
            fun ip => freeEntry ip.2) := by
  intro l
  induction l with
  | nil =>
    intro i credits list seen
    simp [freeElectivesGo, freeEligibleFrom, dedupeFirstByKey]
  | cons p rest ih =>
    intro i credits list seen
    rw [freeElectivesGo, freeEligibleFrom]
    by_cases hel : i ∉ used ∧ is_passing_grade p.grade = true
    · rw [if_pos hel, if_pos hel, dedupeFirstByKey]
      by_cases hseen : free_elective_dedupe_key p.code p.name ∈ seen
      · rw [if_pos hseen]
        simp only
        rw [if_pos hseen]
        exact ih (i + 1) credits list seen
      · rw [if_neg hseen]
        simp only
        rw [if_neg hseen]
        rw [ih (i + 1) (credits + p.parsed_credit) _ _]
        simp [freeEntry, add_assoc]
    · rw [if_neg hel, if_neg hel]
      exact ih (i + 1) credits list seen

/-- The free-elective collector computes exactly the raw parsed credits and
display entries of the kept (first-per-key, unused, passing) records. -/
theorem calculate_free_electives_eq (courses : List ParsedCourse) (used : Finset ℕ) :
    calculate_free_electives courses used =
      (((freeKept courses used).map fun ip => ip.2.parsed_credit).sum,
       (freeKept courses used).map fun ip => freeEntry ip.2) := by
  rw [calculate_free_electives, freeElectivesGo_eq]
  simp [freeKept]

theorem freeEligibleFrom_index_ge {used : Finset ℕ} :
    ∀ (l : List ParsedCourse) (i : ℕ) (ip : ℕ × ParsedCourse),
      ip ∈ freeEligibleFrom used i l → i ≤ ip.1 := by
  intro l
  induction l with
  | nil => intro i ip h; simp [freeEligibleFrom] at h
  | cons p rest ih =>
    intro i ip h
    rw [freeEligibleFrom] at h
    split at h
    · rcases List.mem_cons.1 h with rfl | h2
      · exact le_rfl
      · exact le_trans (Nat.le_succ i) (ih (i + 1) ip h2)
    · exact le_trans (Nat.le_succ i) (ih (i + 1) ip h)

theorem freeEligibleFrom_pairwise {used : Finset ℕ} :
    ∀ (l : List ParsedCourse) (i : ℕ),
      (freeEligibleFrom used i l).Pairwise (fun a b => a.1 < b.1) := by
  intro l
  induction l with
  | nil => intro i; simp [freeEligibleFrom]
  | cons p rest ih =>
    intro i
    rw [freeEligibleFrom]
    split
    · refine List.Pairwise.cons ?_ (ih (i + 1))
      intro b hb
      have := freeEligibleFrom_index_ge rest (i + 1) b hb
      omega
    · exact ih (i + 1)

theorem dedupeFirstByKey_keep_iff :
    ∀ (l : List (ℕ × ParsedCourse)) (seen : List String),
      l.Pairwise (fun a b => a.1 < b.1) →
      ∀ ip ∈ l,
        (ip ∈ dedupeFirstByKey l seen ↔
          (free_elective_dedupe_key ip.2.code ip.2.name ∉ seen ∧
            ∀ jq ∈ l, free_elective_dedupe_key jq.2.code jq.2.name =
                free_elective_dedupe_key ip.2.code ip.2.name →
              ip.1 ≤ jq.1)) := by
  intro l
  induction l with
  | nil => intro seen _ ip h; simp at h
  | cons q rest ih =>
    intro seen hpair ip hip
    have hqrest : ∀ b ∈ rest, q.1 < b.1 := (List.pairwise_cons.1 hpair).1
    have hrestpair := (List.pairwise_cons.1 hpair).2
    rw [dedupeFirstByKey]
    rcases List.mem_cons.1 hip with rfl | hiprest
    · by_cases hseen : free_elective_dedupe_key ip.2.code ip.2.name ∈ seen
      · rw [if_pos hseen]
        constructor
        · intro hmem
          have hr := dedupeFirstByKey_subset rest seen ip hmem
          exact absurd (hqrest ip hr) (lt_irrefl _)
        · intro hc
          exact absurd hseen hc.1
      · rw [if_neg hseen]
        constructor
        · intro _
          refine ⟨hseen, ?_⟩
          intro jq hjq _
          rcases List.mem_cons.1 hjq with rfl | hjqrest
          · exact le_rfl
          · exact le_of_lt (hqrest jq hjqrest)
        · intro _
          exact List.mem_cons_self ..
    · have hlt : q.1 < ip.1 := hqrest ip hiprest
      by_cases hseen : free_elective_dedupe_key q.2.code q.2.name ∈ seen
      · rw [if_pos hseen]
        rw [ih seen hrestpair ip hiprest]
        constructor
        · intro ⟨h1, h2⟩
          refine ⟨h1, ?_⟩
          intro jq hjq hkey
          rcases List.mem_cons.1 hjq with rfl | hjqrest
          · exact absurd hseen (hkey ▸ h1)
          · exact h2 jq hjqrest hkey
        · intro ⟨h1, h2⟩
          exact ⟨h1, fun jq hjq hkey => h2 jq (List.mem_cons_of_mem q hjq) hkey⟩
      · rw [if_neg hseen]
        have hipq : ip ≠ q := by
          intro hh
          rw [hh] at hlt
          omega
        constructor
        · intro hmem
          rcases List.mem_cons.1 hmem with rfl | hmem2
          · exact absurd rfl hipq
          · obtain ⟨h1, h2⟩ := (ih _ hrestpair ip hiprest).1 hmem2
            have hkeys : free_elective_dedupe_key ip.2.code ip.2.name ∉ seen ∧
                free_elective_dedupe_key ip.2.code ip.2.name ≠
                  free_elective_dedupe_key q.2.code q.2.name := by
              constructor
              · intro hcon
                exact h1 (List.mem_cons_of_mem _ hcon)
              · intro hcon
                exact h1 (by rw [hcon]; exact List.mem_cons_self ..)
            refine ⟨hkeys.1, ?_⟩
            intro jq hjq hkey
            rcases List.mem_cons.1 hjq with rfl | hjqrest
            · exact absurd hkey.symm hkeys.2
            · exact h2 jq hjqrest hkey
        · intro ⟨h1, h2⟩
          refine List.mem_cons_of_mem q ((ih _ hrestpair ip hiprest).2 ⟨?_, ?_⟩)
          · intro hcon
            rcases List.mem_cons.1 hcon with heq | hseen2
            · have := h2 q (List.mem_cons_self ..) heq.symm
              omega
            · exact h1 hseen2
          · intro jq hjq hkey
            exact h2 jq (List.mem_cons_of_mem q hjq) hkey

/-- C5: among the records not in the used-index set and with a passing grade
(the eligible records), for each normalized (code, name) dedupe key exactly
the first such record in document order contributes its raw parsed credit and
its display entry; every later record with the same key is dropped entirely —
the collector's output is exactly the kept records' raw credits and entries
(and the collector touches no used set: it returns only credits and a list).
A record is kept iff no eligible record with a smaller index shares its key. -/
theorem C5_free_elective_dedupe (courses : List ParsedCourse) (used : Finset ℕ) :
    calculate_free_electives courses used =
      (((freeKept courses used).map fun ip => ip.2.parsed_credit).sum,
       (freeKept courses used).map fun ip => freeEntry ip.2) ∧
    (∀ ip ∈ freeEligibleFrom used 0 courses,
      (ip ∈ freeKept courses used ↔
        ∀ jq ∈ freeEligibleFrom used 0 courses,
          free_elective_dedupe_key jq.2.code jq.2.name =
            free_elective_dedupe_key ip.2.code ip.2.name →
          ip.1 ≤ jq.1)) := by
  refine ⟨calculate_free_electives_eq courses used, ?_⟩
  intro ip hip
  rw [freeKept,
    dedupeFirstByKey_keep_iff _ [] (freeEligibleFrom_pairwise courses 0) ip hip]
  simp

/-- Witness for C5: two passing records share the (code, name) key; the first
is kept, and the collector credits a single 3-credit entry. -/
theorem C5_free_elective_dedupe_witness :
    (((0 : ℕ), (⟨"000-001", "X", "A", 3⟩ : ParsedCourse)) ∈
        freeKept [⟨"000-001", "X", "A", 3⟩, ⟨"000-001", "X", "B+", 3⟩] ∅ ↔
      ∀ jq ∈ freeEligibleFrom ∅ 0
          [(⟨"000-001", "X", "A", 3⟩ : ParsedCourse), ⟨"000-001", "X", "B+", 3⟩],
        free_elective_dedupe_key jq.2.code jq.2.name =
          free_elective_dedupe_key
            (⟨"000-001", "X", "A", 3⟩ : ParsedCourse).code
            (⟨"000-001", "X", "A", 3⟩ : ParsedCourse).name →
        (0 : ℕ) ≤ jq.1) :=
  (C5_free_elective_dedupe
      [⟨"000-001", "X", "A", 3⟩, ⟨"000-001", "X", "B+", 3⟩] ∅).2
    (0, ⟨"000-001", "X", "A", 3⟩) (by decide)

/-- C2: every structured requirement match awards
min(declaredCredit, parsedCredit): the helper used at every structured award
site computes exactly that minimum, a choose-all step (the shape shared by
GenEd strands, Basic Science and Core Courses) adds exactly that minimum for
the matched record, and the free-elective collector is the sole exception,
crediting the raw parsed credit of each kept record. -/
theorem C2_structured_credit_is_min (courses : List ParsedCourse) :
    (∀ (cc : ℚ) (p : ParsedCourse),
      matched_course_credits cc p = min cc p.parsed_credit) ∧
    (∀ (nm : String) (c : GenEdCourse) (rest : List GenEdCourse) (s : GEState)
        (idx : ℕ) (parsed : ParsedCourse),
      findMatch courses s.used c.code = some (idx, parsed) →
      auditChooseAllCourses courses nm (c :: rest) s =
        auditChooseAllCourses courses nm rest
          { s with credits := s.credits + min c.credits parsed.parsed_credit,
                   used := insert idx s.used }) ∧
    (∀ (cat : String) (c : MajorCourse) (rest : List MajorCourse) (s : MAState)
        (idx : ℕ) (parsed : ParsedCourse),
      findMatch courses s.used c.code = some (idx, parsed) →
      auditMajorCourseList courses cat (c :: rest) s =
        auditMajorCourseList courses cat rest
          { s with credits := s.credits + min c.credits parsed.parsed_credit,
                   used := insert idx s.used }) ∧
    (∀ used : Finset ℕ,
      (calculate_free_electives courses used).1 =
        ((freeKept courses used).map fun ip => ip.2.parsed_credit).sum) := by
  refine ⟨fun cc p => rfl, ?_, ?_, ?_⟩
  · intro nm c rest s idx parsed hm
    rw [auditChooseAllCourses]
    simp only [hm]
    rfl
  · intro cat c rest s idx parsed hm
    rw [auditMajorCourseList]
    simp only [hm]
    rfl
  · intro used
    rw [calculate_free_electives_eq]

/-- Witness for C2: a record parsed at 5 credits matching a course declared
at 3 credits is awarded min 3 5 credits by the choose-all step. -/
theorem C2_structured_credit_is_min_witness :
    auditChooseAllCourses [⟨"900-100", "Y", "A", 5⟩] "S" [⟨"900-100", "Y", 3⟩]
        ⟨0, [], ∅⟩ =
      auditChooseAllCourses [⟨"900-100", "Y", "A", 5⟩] "S" []
        ⟨0 + min 3 5, [], insert 0 ∅⟩ :=
  (C2_structured_credit_is_min [⟨"900-100", "Y", "A", 5⟩]).2.1 "S"
    ⟨"900-100", "Y", 3⟩ [] ⟨0, [], ∅⟩ 0 ⟨"900-100", "Y", "A", 5⟩ (by decide)

/-! ## Characterization of the greedy "others" phase (C7) -/

theorem othersMatchedFrom_insert_lt {used : Finset ℕ} {code : String} {i : ℕ} :
    ∀ (l : List ParsedCourse) (j : ℕ), i < j →
      othersMatchedFrom (insert i used) code j l = othersMatchedFrom used code j l := by
  intro l
  induction l with
  | nil => intro j _; rfl
  | cons p rest ih =>
    intro j hij
    rw [othersMatchedFrom, othersMatchedFrom]
    have hmem : j ∉ insert i used ↔ j ∉ used := by
      rw [Finset.mem_insert]
      constructor
      · intro h hj; exact h (Or.inr hj)
      · intro h hj
        rcases hj with rfl | hj
        · omega
        · exact h hj
    rw [ih (j + 1) (by omega)]
    by_cases hc : j ∉ used ∧ p.code = code ∧ is_passing_grade p.grade = true
    · rw [if_pos hc, if_pos ⟨hmem.2 hc.1, hc.2⟩]
    · rw [if_neg hc, if_neg ?_]
      intro hcon
      exact hc ⟨hmem.1 hcon.1, hcon.2⟩

theorem auditOthersCourse_eq {course : MajorCourse} :
    ∀ (l : List ParsedCourse) (i : ℕ) (ec : ℚ) (used : Finset ℕ),
      auditOthersCourse course i l (ec, used) =
        (ec + ((othersMatchedFrom used course.code i l).map
            fun ip => matched_course_credits course.credits ip.2).sum,
         (othersMatchedFrom used course.code i l).foldl
            (fun u ip => insert ip.1 u) used) := by
  intro l
  induction l with
  | nil =>
    intro i ec used
    simp [auditOthersCourse, othersMatchedFrom]
  | cons p rest ih =>
    intro i ec used
    rw [auditOthersCourse, othersMatchedFrom]
    by_cases hc : i ∉ used ∧ p.code = course.code ∧ is_passing_grade p.grade = true
    · rw [if_pos hc, if_pos hc]
      rw [ih (i + 1) (ec + matched_course_credits course.credits p) (insert i used)]
      rw [othersMatchedFrom_insert_lt rest (i + 1) (by omega)]
      simp [add_assoc]
    · rw [if_neg hc, if_neg hc]
      exact ih (i + 1) ec used

theorem othersMatchedFrom_mem_of {used : Finset ℕ} {code : String} :
    ∀ (l : List ParsedCourse) (i k : ℕ) (p : ParsedCourse),
      l.get? k = some p → (i + k) ∉ used → p.code = code →
      is_passing_grade p.grade = true →
      (i + k, p) ∈ othersMatchedFrom used code i l := by
  intro l
  induction l with
  | nil => intro i k p h; simp [List.get?] at h
  | cons q rest ih =>
    intro i k p hget hused hcode hpass
    rw [othersMatchedFrom]
    cases k with
    | zero =>
      have hq : q = p := by simpa [List.get?] using hget
      subst hq
      rw [if_pos ⟨by simpa using hused, hcode, hpass⟩]
      simp
    | succ k2 =>
      have hmem : (i + 1 + k2, p) ∈ othersMatchedFrom used code (i + 1) rest := by
        refine ih (i + 1) k2 p hget ?_ hcode hpass
        have : i + 1 + k2 = i + (k2 + 1) := by omega
        rw [this]
        exact hused
      have harith : i + (k2 + 1) = i + 1 + k2 := by omega
      rw [harith]
      split
      · exact List.mem_cons_of_mem _ hmem
      · exact hmem

theorem othersMatchedFrom_mem_then {used : Finset ℕ} {code : String} :
    ∀ (l : List ParsedCourse) (i : ℕ) (ip : ℕ × ParsedCourse),
      ip ∈ othersMatchedFrom used code i l →
      ∃ k, l.get? k = some ip.2 ∧ ip.1 = i + k ∧ ip.1 ∉ used ∧
        ip.2.code = code ∧ is_passing_grade ip.2.grade = true := by
  intro l
  induction l with
  | nil => intro i ip h; simp [othersMatchedFrom] at h
  | cons q rest ih =>
    intro i ip h
    rw [othersMatchedFrom] at h
    split at h
    · rename_i hc
      rcases List.mem_cons.1 h with rfl | h2
      · exact ⟨0, by simp [List.get?], by omega, hc.1, hc.2.1, hc.2.2⟩
      · obtain ⟨k, hget, harith, hrest⟩ := ih (i + 1) ip h2
        exact ⟨k + 1, by simpa [List.get?] using hget, by omega, hrest⟩
    · obtain ⟨k, hget, harith, hrest⟩ := ih (i + 1) ip h
      exact ⟨k + 1, by simpa [List.get?] using hget, by omega, hrest⟩

theorem auditOthers_used_iff (courses : List ParsedCourse) :
    ∀ (others : List MajorCourse) (s : MAState) (j : ℕ),
      j ∈ (auditOthers courses others s).used ↔
        j ∈ s.used ∨ ∃ p, courses.get? j = some p ∧
          p.code ∈ others.map MajorCourse.code ∧
          is_passing_grade p.grade = true := by
  intro others
  induction others with
  | nil =>
    intro s j
    simp [auditOthers]
  | cons course rest ih =>
    intro s j
    have hstep : (auditOthers courses (course :: rest) s) =
        auditOthers courses rest
          { s with
            elective_credits :=
              (auditOthersCourse course 0 courses (s.elective_credits, s.used)).1,
            used := (auditOthersCourse course 0 courses (s.elective_credits, s.used)).2 } := by
      rw [auditOthers, List.foldl_cons, auditOthers]
    rw [hstep, ih]
    have hused : (auditOthersCourse course 0 courses (s.elective_credits, s.used)).2 =
        (othersMatchedFrom s.used course.code 0 courses).foldl
          (fun u ip => insert ip.1 u) s.used := by
      rw [auditOthersCourse_eq]
    constructor
    · intro h
      rcases h with h | h
      · rw [hused] at h
        rw [← List.foldl_map (f := Prod.fst) (g := fun u i => insert i u)] at h
        rw [mem_foldl_insert] at h
        rcases h with h | h
        · exact Or.inl h
        · rcases List.mem_map.1 h with ⟨ip, hipmem, hfst⟩
          obtain ⟨k, hget, harith, _, hcode, hpass⟩ :=
            othersMatchedFrom_mem_then courses 0 ip hipmem
          refine Or.inr ⟨ip.2, ?_, ?_, hpass⟩
          · rw [← hfst, harith]
            simpa using hget
          · rw [hcode]
            exact List.mem_cons_self ..
      · obtain ⟨p, hget, hcode, hpass⟩ := h
        exact Or.inr ⟨p, hget, List.mem_cons_of_mem _ hcode, hpass⟩
    · intro h
      rcases h with h | ⟨p, hget, hcode, hpass⟩
      · refine Or.inl ?_
        rw [hused, ← List.foldl_map (f := Prod.fst) (g := fun u i => insert i u),
          mem_foldl_insert]
        exact Or.inl h
      · rcases List.mem_cons.1 hcode with hhead | htail
        · by_cases hj : j ∈ s.used
          · refine Or.inl ?_
            rw [hused, ← List.foldl_map (f := Prod.fst) (g := fun u i => insert i u),
              mem_foldl_insert]
            exact Or.inl hj
          · refine Or.inl ?_
            rw [hused, ← List.foldl_map (f := Prod.fst) (g := fun u i => insert i u),
              mem_foldl_insert]
            refine Or.inr (List.mem_map.2 ⟨(j, p), ?_, rfl⟩)
            have := othersMatchedFrom_mem_of courses 0 j p (by simpa using hget)
              (by simpa using hj) (by rw [hhead]) hpass
            simpa using this
        · exact Or.inr ⟨p, hget, htail, hpass⟩

/-- C7: in the "others" bucket, the greedy scan for one repeatable course
consumes every unused passing record with that code and credits each one
individually (the capped credit of every consumed record is summed); across
the whole phase an index is consumed exactly when it was already used or
holds a passing record whose code is one of the "other" codes. Two passing
3-credit records under the same "other" code are both consumed for 6 elective
credits. -/
theorem C7_others_greedy_repeatable (courses : List ParsedCourse) :
    (∀ (course : MajorCourse) (ec : ℚ) (used : Finset ℕ),
      auditOthersCourse course 0 courses (ec, used) =
        (ec + ((othersMatchedFrom used course.code 0 courses).map
            fun ip => matched_course_credits course.credits ip.2).sum,
         (othersMatchedFrom used course.code 0 courses).foldl
            (fun u ip => insert ip.1 u) used)) ∧
    (∀ (others : List MajorCourse) (s : MAState) (j : ℕ),
      j ∈ (auditOthers courses others s).used ↔
        j ∈ s.used ∨ ∃ p, courses.get? j = some p ∧
          p.code ∈ others.map MajorCourse.code ∧
          is_passing_grade p.grade = true) ∧
    auditOthers
        [⟨"SPECIAL-001", "Special Topics in Computer Science", "A", 3⟩,
         ⟨"SPECIAL-001", "Special Topics in Computer Science", "A", 3⟩]
        [⟨"SPECIAL-001", "Special Topics in Computer Science", 3⟩]
        ⟨0, 0, [], ∅⟩ =
      ⟨0, 6, [], {0, 1}⟩ := by
  refine ⟨fun course ec used => auditOthersCourse_eq courses 0 ec used,
    auditOthers_used_iff courses, ?_⟩
  have hq : (0 : ℚ) +
      matched_course_credits 3
        ⟨"SPECIAL-001", "Special Topics in Computer Science", "A", 3⟩ +
      matched_course_credits 3
        ⟨"SPECIAL-001", "Special Topics in Computer Science", "A", 3⟩ = 6 := by
    norm_num [matched_course_credits]
  have hf : (insert 1 (insert 0 ∅) : Finset ℕ) = {0, 1} := by decide
  have hcomp : auditOthers
      [⟨"SPECIAL-001", "Special Topics in Computer Science", "A", 3⟩,
       ⟨"SPECIAL-001", "Special Topics in Computer Science", "A", 3⟩]
      [⟨"SPECIAL-001", "Special Topics in Computer Science", 3⟩]
      ⟨0, 0, [], ∅⟩ =
      (⟨0, (0 : ℚ) +
        matched_course_credits 3
          ⟨"SPECIAL-001", "Special Topics in Computer Science", "A", 3⟩ +
        matched_course_credits 3
          ⟨"SPECIAL-001", "Special Topics in Computer Science", "A", 3⟩,
        [], insert 1 (insert 0 ∅)⟩ : MAState) := rfl
  rw [hcomp, hq, hf]

/-! ## Cluster completion counting (C6) -/

theorem auditClusterCourses_found (courses : List ParsedCourse) :
    ∀ (cs : List MajorCourse) (st : ℚ × Finset ℕ × ℕ),
      (auditClusterCourses courses cs st).2.2 =
        st.2.2 + cs.countP
          (fun c => courses.any fun r => r.code == c.code && is_passing_grade r.grade) := by
  intro cs
  induction cs with
  | nil => intro st; simp [auditClusterCourses]
  | cons c rest ih =>
    intro st
    obtain ⟨ec, used, found⟩ := st
    cases hm : findMatch courses used c.code with
    | some jp =>
      obtain ⟨j, p⟩ := jp
      simp only [auditClusterCourses, hm]
      rw [ih]
      have hany := any_passing_of_findMatch hm
      rw [List.countP_cons, hany]
      simp only [if_true]
      omega
    | none =>
      simp only [auditClusterCourses, hm]
      rw [List.countP_cons]
      by_cases hany : (courses.any fun r => r.code == c.code && is_passing_grade r.grade) = true
      · rw [if_pos hany, hany]
        rw [ih]
        simp only [if_true]
        omega
      · rw [if_neg hany]
        rw [ih]
        have hf : (courses.any fun r => r.code == c.code && is_passing_grade r.grade) = false :=
          Bool.not_eq_true _ |>.mp hany
        rw [hf]
        simp only [Bool.false_eq_true, if_false]
        omega

theorem auditCluster_count (courses : List ParsedCourse) (st : ℚ × Finset ℕ × ℕ)
    (cluster : MajorCluster) :
    (auditCluster courses st cluster).2.2 =
      st.2.2 + (if cluster.min_courses ≤ clusterFoundCount courses cluster then 1 else 0) := by
  have hfound : (auditClusterCourses courses cluster.courses (st.1, st.2.1, 0)).2.2 =
      clusterFoundCount courses cluster := by
    rw [auditClusterCourses_found]
    simp [clusterFoundCount]
  simp only [auditCluster]
  split
  · rename_i hle
    rw [hfound] at hle
    rw [if_pos hle]
  · rename_i hle
    rw [hfound] at hle
    rw [if_neg hle]
    simp

theorem auditDomain_count (courses : List ParsedCourse) :
    ∀ (clusters : List MajorCluster) (st : ℚ × Finset ℕ × ℕ),
      (clusters.foldl (auditCluster courses) st).2.2 =
        st.2.2 + clusters.countP
          (fun cl => decide (cl.min_courses ≤ clusterFoundCount courses cl)) := by
  intro clusters
  induction clusters with
  | nil => intro st; simp
  | cons cl rest ih =>
    intro st
    rw [List.foldl_cons, ih, auditCluster_count, List.countP_cons]
    by_cases hle : cl.min_courses ≤ clusterFoundCount courses cl
    · rw [if_pos hle]
      simp [hle]
      omega
    · rw [if_neg hle]
      simp [hle]

theorem majorClusterResult_count (courses : List ParsedCourse) (m : MajorCurriculum) :
    (majorClusterResult courses m).2.2 = completedClustersSpec courses m := by
  rw [majorClusterResult, completedClustersSpec]
  have hgen : ∀ (domains : List MajorDomain) (st : ℚ × Finset ℕ × ℕ),
      (domains.foldl (auditDomain courses) st).2.2 =
        st.2.2 + (domains.map fun d =>
          d.clusters.countP fun cl =>
            decide (cl.min_courses ≤ clusterFoundCount courses cl)).sum := by
    intro domains
    induction domains with
    | nil => intro st; simp
    | cons d rest ih =>
      intro st
      rw [List.foldl_cons, ih]
      rw [show auditDomain courses st d = d.clusters.foldl (auditCluster courses) st from rfl]
      rw [auditDomain_count]
      rw [List.map_cons, List.sum_cons]
      omega
  rw [hgen]
  simp

theorem auditMajorCourseList_missing (courses : List ParsedCourse) (cat : String) :
    ∀ (cs : List MajorCourse) (s : MAState) (mi : MissingCourse),
      mi ∈ (auditMajorCourseList courses cat cs s).missing →
      mi ∈ s.missing ∨ mi.category = cat := by
  intro cs
  induction cs with
  | nil => intro s mi h; exact Or.inl h
  | cons c rest ih =>
    intro s mi h
    rw [auditMajorCourseList] at h
    rcases hm : findMatch courses s.used c.code with _ | ⟨j, p⟩
    · simp only [hm] at h
      rcases ih _ mi h with hin | hcat
      · rcases List.mem_append.1 hin with hin2 | hin2
        · exact Or.inl hin2
        · right
          have hemi : mi = (⟨cat, c.code ++ " - " ++ c.name⟩ : MissingCourse) := by
            simpa using hin2
          rw [hemi]
      · exact Or.inr hcat
    · simp only [hm] at h
      exact ih ⟨s.credits + matched_course_credits c.credits p, s.elective_credits,
        s.missing, insert j s.used⟩ mi h

theorem majorPreElectives_missing (courses : List ParsedCourse) (m : MajorCurriculum) :
    ∀ mi ∈ (majorPreElectives courses m).missing,
      mi.category = "Basic Science" ∨ mi.category = "Core Courses" ∨
        mi.category = "Capstone" := by
  intro mi hmi
  rw [majorPreElectives] at hmi
  have hs1 : ∀ mj ∈ (auditMajorCourseList courses "Basic Science"
      m.basic_science.courses ⟨0, 0, [], ∅⟩).missing,
      MissingCourse.category mj = "Basic Science" := by
    intro mj hmj
    rcases auditMajorCourseList_missing courses "Basic Science"
      m.basic_science.courses ⟨0, 0, [], ∅⟩ mj hmj with hin | hcat
    · simp at hin
    · exact hcat
  have hs2 : ∀ mj ∈ (auditMajorCourseList courses "Core Courses" m.core_courses.courses
      (auditMajorCourseList courses "Basic Science" m.basic_science.courses
        ⟨0, 0, [], ∅⟩)).missing,
      MissingCourse.category mj = "Basic Science" ∨
        MissingCourse.category mj = "Core Courses" := by
    intro mj hmj
    rcases auditMajorCourseList_missing courses "Core Courses" m.core_courses.courses
      _ mj hmj with hin | hcat
    · exact Or.inl (hs1 mj hin)
    · exact Or.inr hcat
  rcases hcap : capstoneFind courses
      (auditMajorCourseList courses "Core Courses" m.core_courses.courses
        (auditMajorCourseList courses "Basic Science" m.basic_science.courses
          ⟨0, 0, [], ∅⟩)).used m.capstone.options with _ | ⟨j, mc⟩
  · rw [hcap] at hmi
    simp only at hmi
    rcases List.mem_append.1 hmi with hin | hin
    · rcases hs2 mi hin with h | h
      · exact Or.inl h
      · exact Or.inr (Or.inl h)
    · right; right
      have : mi = (⟨"Capstone", "Choose 1: " ++ String.intercalate " OR "
          (m.capstone.options.map fun o => o.code ++ " (" ++ o.name ++ ")")⟩ :
            MissingCourse) := by
        simpa using hin
      rw [this]
  · rw [hcap] at hmi
    simp only at hmi
    rcases hs2 mi hmi with h | h
    · exact Or.inl h
    · exact Or.inr (Or.inl h)

theorem auditOthers_missing (courses : List ParsedCourse) :
    ∀ (others : List MajorCourse) (s : MAState),
      (auditOthers courses others s).missing = s.missing := by
  intro others
  induction others with
  | nil => intro s; rfl
  | cons course rest ih =>
    intro s
    rw [auditOthers, List.foldl_cons]
    exact ih _

/-- The final missing list of `audit_major` is the pre-elective phases'
missing list, followed by the single cluster-shortfall summary entry when the
completed-cluster count falls short. -/
theorem audit_major_missing_eq (courses : List ParsedCourse) (m : MajorCurriculum) :
    (audit_major courses m).2.2.1 =
      (majorPreElectives courses m).missing ++
        (if (majorClusterResult courses m).2.2 < m.electives.clusters_to_complete then
          [⟨"Major Electives",
            "Required: " ++ toString m.electives.clusters_to_complete ++
              " Clusters, Completed: " ++ toString (majorClusterResult courses m).2.2 ++
              ". Please complete all courses within at least " ++
              toString m.electives.clusters_to_complete ++ " clusters."⟩]
        else []) := by
  simp only [audit_major]
  rw [auditOthers_missing]
  split
  · rfl
  · simp

/-- C6: a cluster counts as completed exactly when the number of its listed
courses having a passing record with that code anywhere in the transcript —
including records already consumed — reaches its `min_courses`; all clusters
of all domains are counted with no early exit, and a shortfall against
`clusters_to_complete` puts exactly one "Major Electives" summary entry in
the missing list, never one per cluster. A cluster requiring 2 of 3 listed
courses with exactly 2 present and passing counts as completed. -/
theorem C6_cluster_completion (courses : List ParsedCourse) (m : MajorCurriculum) :
    (majorClusterResult courses m).2.2 = completedClustersSpec courses m ∧
    ((audit_major courses m).2.2.1.countP
        (fun mi => mi.category == "Major Electives")) =
      (if completedClustersSpec courses m < m.electives.clusters_to_complete
        then 1 else 0) ∧
    clusterFoundCount
        [⟨"344-331", "Data Science", "A", 3⟩, ⟨"344-332", "Data Mining", "B", 3⟩]
        ⟨"1.1", "Demo", 2, none,
          [⟨"344-331", "Data Science", 3⟩, ⟨"344-332", "Data Mining", 3⟩,
           ⟨"344-431", "Big Data", 3⟩]⟩ = 2 ∧
    (2 ≤ clusterFoundCount
        [⟨"344-331", "Data Science", "A", 3⟩, ⟨"344-332", "Data Mining", "B", 3⟩]
        ⟨"1.1", "Demo", 2, none,
          [⟨"344-331", "Data Science", 3⟩, ⟨"344-332", "Data Mining", 3⟩,
           ⟨"344-431", "Big Data", 3⟩]⟩) := by
  refine ⟨majorClusterResult_count courses m, ?_, by decide, by decide⟩
  rw [audit_major_missing_eq, List.countP_append]
  have hbase : (majorPreElectives courses m).missing.countP
      (fun mi => mi.category == "Major Electives") = 0 := by
    rw [List.countP_eq_zero]
    intro mi hmi
    rcases majorPreElectives_missing courses m mi hmi with h | h | h <;>
      simp [h]
  rw [hbase, majorClusterResult_count courses m]
  split
  · simp
  · simp

/-! ## Sequential-pair strands (C3) -/

theorem FullPair_pair_iff {courses : List ParsedCourse} {used : Finset ℕ}
    {scs : List GenEdCourse} {a b : String} :
    FullPair courses used scs [a, b] ↔
      ((scs.find? fun c => c.code == a).isSome = true ∧
        (findMatch courses used a).isSome = true) ∧
      ((scs.find? fun c => c.code == b).isSome = true ∧
        (findMatch courses used b).isSome = true) := by
  constructor
  · intro h
    exact ⟨h a (by simp), h b (by simp)⟩
  · rintro ⟨ha, hb⟩ code hcode
    rcases List.mem_cons.1 hcode with rfl | hcode2
    · exact ha
    · rcases List.mem_cons.1 hcode2 with rfl | hcode3
      · exact hb
      · simp at hcode3

theorem seqPairScan_full {courses : List ParsedCourse} {used : Finset ℕ}
    {scs : List GenEdCourse} {a b : String}
    (hfull : FullPair courses used scs [a, b]) :
    ∃ ca cb i1 p1 i2 p2,
      scs.find? (fun c => c.code == a) = some ca ∧
      scs.find? (fun c => c.code == b) = some cb ∧
      findMatch courses used a = some (i1, p1) ∧
      findMatch courses used b = some (i2, p2) ∧
      seqPairScan courses used scs [a, b] =
        ([i1, i2],
          matched_course_credits ca.credits p1 + matched_course_credits cb.credits p2) := by
  obtain ⟨⟨hca, hma⟩, ⟨hcb, hmb⟩⟩ := FullPair_pair_iff.1 hfull
  obtain ⟨ca, hca2⟩ := Option.isSome_iff_exists.1 hca
  obtain ⟨cb, hcb2⟩ := Option.isSome_iff_exists.1 hcb
  obtain ⟨ip1, hma2⟩ := Option.isSome_iff_exists.1 hma
  obtain ⟨ip2, hmb2⟩ := Option.isSome_iff_exists.1 hmb
  obtain ⟨i1, p1⟩ := ip1
  obtain ⟨i2, p2⟩ := ip2
  refine ⟨ca, cb, i1, p1, i2, p2, hca2, hcb2, hma2, hmb2, ?_⟩
  simp [seqPairScan, hca2, hcb2, hma2, hmb2]

theorem seqPairScan_length_of_full {courses : List ParsedCourse} {used : Finset ℕ}
    {scs : List GenEdCourse} {a b : String}
    (hfull : FullPair courses used scs [a, b]) :
    (seqPairScan courses used scs [a, b]).1.length = 2 := by
  obtain ⟨ca, cb, i1, p1, i2, p2, _, _, _, _, hscan⟩ := seqPairScan_full hfull
  rw [hscan]
  rfl

theorem pair_eq_of_length_two :
    ∀ (P : List String), P.length = 2 → ∃ a b, P = [a, b] := by
  intro P h
  match P, h with
  | [a, b], _ => exact ⟨a, b, rfl⟩

theorem seqPairScan_not_full {courses : List ParsedCourse} {used : Finset ℕ}
    {scs : List GenEdCourse} (pair : List String)
    (hlen : pair.length = 2) (hnot : ¬ FullPair courses used scs pair) :
    (seqPairScan courses used scs pair).1.length ≠ 2 := by
  obtain ⟨a, b, rfl⟩ := pair_eq_of_length_two pair hlen
  rcases hca : scs.find? (fun c => c.code == a) with _ | ca <;>
    rcases hma : findMatch courses used a with _ | ⟨i1, p1⟩ <;>
    rcases hcb : scs.find? (fun c => c.code == b) with _ | cb <;>
    rcases hmb : findMatch courses used b with _ | ⟨i2, p2⟩ <;>
    simp [seqPairScan, hca, hma, hcb, hmb]
  exact hnot (FullPair_pair_iff.2
    ⟨⟨by simp [hca], by simp [hma]⟩, ⟨by simp [hcb], by simp [hmb]⟩⟩)

theorem seqPairLoop_first {courses : List ParsedCourse} {used : Finset ℕ}
    {scs : List GenEdCourse} :
    ∀ (pre : List (List String)) (post : List (List String)) (P : List String),
      (∀ Q ∈ pre, Q.length = 2 → ¬ FullPair courses used scs Q) →
      P.length = 2 → FullPair courses used scs P →
      seqPairLoop courses used scs (pre ++ P :: post) =
        some (seqPairScan courses used scs P) := by
  intro pre
  induction pre with
  | nil =>
    intro post P hpre hlen hfull
    obtain ⟨a, b, rfl⟩ := pair_eq_of_length_two P hlen
    rw [List.nil_append, seqPairLoop, if_pos hlen,
      if_pos (seqPairScan_length_of_full hfull)]
  | cons Q pre2 ih =>
    intro post P hpre hlen hfull
    rw [List.cons_append, seqPairLoop]
    by_cases hQ : Q.length = 2
    · rw [if_pos hQ, if_neg (seqPairScan_not_full Q hQ (hpre Q (by simp) hQ))]
      exact ih post P (fun R hR => hpre R (List.mem_cons_of_mem Q hR)) hlen hfull
    · rw [if_neg hQ]
      exact ih post P (fun R hR => hpre R (List.mem_cons_of_mem Q hR)) hlen hfull

theorem seqPairLoop_none_of_no_full {courses : List ParsedCourse} {used : Finset ℕ}
    {scs : List GenEdCourse} :
    ∀ (groups : List (List String)),
      (∀ Q ∈ groups, Q.length = 2 → ¬ FullPair courses used scs Q) →
      seqPairLoop courses used scs groups = none := by
  intro groups
  induction groups with
  | nil => intro _; rfl
  | cons Q rest ih =>
    intro h
    rw [seqPairLoop]
    by_cases hQ : Q.length = 2
    · rw [if_pos hQ, if_neg (seqPairScan_not_full Q hQ (h Q (by simp) hQ))]
      exact ih fun R hR => h R (List.mem_cons_of_mem Q hR)
    · rw [if_neg hQ]
      exact ih fun R hR => h R (List.mem_cons_of_mem Q hR)

/-- C3: for a strand with selection rule ChooseSequentialPair, when no
length-2 pair has both codes declared and matched by unused passing records,
nothing is consumed, no credit is awarded, and one missing entry enumerating
the pairs is pushed; when the first such fully matching pair exists, exactly
its two declared codes' matched indices are consumed and the sum of their
capped declared credits is awarded, with no missing entry — a pair that
fails to fully match consumes nothing, so a later pair can still match. -/
theorem C3_sequential_pair_semantics (courses : List ParsedCourse) (s : GEState)
    (strand : GenEdStrand) (scs : List GenEdCourse) (groups : List (List String))
    (hrule : strand.selection_rule = some "choose_sequential_pair")
    (hcs : strand.courses = some scs)
    (hsq : strand.sequence_groups = some groups) :
    ((∀ Q ∈ groups, Q.length = 2 → ¬ FullPair courses s.used scs Q) →
      auditStrand courses s strand =
        { s with missing := s.missing ++
            [⟨"General Education",
              strand.name ++ ": choose one pair (" ++
                String.intercalate " OR "
                  ((groups.filter (fun p => p.length == 2)).map fun p =>
                    p.getD 0 "" ++ " + " ++ p.getD 1 "") ++ ")"⟩] }) ∧
    (∀ (pre post : List (List String)) (a b : String),
      groups = pre ++ [a, b] :: post →
      (∀ Q ∈ pre, Q.length = 2 → ¬ FullPair courses s.used scs Q) →
      FullPair courses s.used scs [a, b] →
      ∃ i1 p1 i2 p2 ca cb,
        scs.find? (fun c => c.code == a) = some ca ∧
        scs.find? (fun c => c.code == b) = some cb ∧
        findMatch courses s.used a = some (i1, p1) ∧
        findMatch courses s.used b = some (i2, p2) ∧
        auditStrand courses s strand =
          { s with credits := s.credits +
                     (matched_course_credits ca.credits p1 +
                       matched_course_credits cb.credits p2),
                   used := insert i2 (insert i1 s.used) }) := by
  have hdisp : auditStrand courses s strand = auditStrandSeqPair courses s strand := by
    simp [auditStrand, hrule]
  constructor
  · intro hnone
    have hl := seqPairLoop_none_of_no_full groups hnone
    rw [hdisp]
    simp only [auditStrandSeqPair, hcs, hsq, hl]
  · intro pre post a b hg hpre hfull
    obtain ⟨ca, cb, i1, p1, i2, p2, hca, hcb, hm1, hm2, hscan⟩ := seqPairScan_full hfull
    refine ⟨i1, p1, i2, p2, ca, cb, hca, hcb, hm1, hm2, ?_⟩
    have hl := seqPairLoop_first pre post [a, b] hpre (by simp) hfull
    rw [← hg] at hl
    rw [hdisp]
    simp only [auditStrandSeqPair, hcs, hsq, hl, hscan]
    rfl

/-- Witness for C3, spec scenario 6: with pairs [[X,Y],[Y,Z]] and only Y and
Z passing, the pair [Y,Z] is matched, both declared credits are awarded and
the strand is not reported missing. -/
theorem C3_sequential_pair_semantics_witness :
    ∃ i1 p1 i2 p2 ca cb,
      ([⟨"890-102", "E1", 2⟩, ⟨"890-103", "E2", 2⟩,
        ⟨"890-104", "E3", 2⟩] : List GenEdCourse).find?
          (fun c => c.code == "890-103") = some ca ∧
      ([⟨"890-102", "E1", 2⟩, ⟨"890-103", "E2", 2⟩,
        ⟨"890-104", "E3", 2⟩] : List GenEdCourse).find?
          (fun c => c.code == "890-104") = some cb ∧
      findMatch [⟨"890-103", "E2", "A", 2⟩, ⟨"890-104", "E3", "A", 2⟩]
        (⟨0, [], ∅⟩ : GEState).used "890-103" = some (i1, p1) ∧
      findMatch [⟨"890-103", "E2", "A", 2⟩, ⟨"890-104", "E3", "A", 2⟩]
        (⟨0, [], ∅⟩ : GEState).used "890-104" = some (i2, p2) ∧
      auditStrand [⟨"890-103", "E2", "A", 2⟩, ⟨"890-104", "E3", "A", 2⟩]
          ⟨0, [], ∅⟩
          ⟨6, "English", 6, none,
            some [⟨"890-102", "E1", 2⟩, ⟨"890-103", "E2", 2⟩, ⟨"890-104", "E3", 2⟩],
            some "choose_sequential_pair",
            some [["890-102", "890-103"], ["890-103", "890-104"]]⟩ =
        { (⟨0, [], ∅⟩ : GEState) with credits := (⟨0, [], ∅⟩ : GEState).credits +
                                        (matched_course_credits ca.credits p1 +
                                          matched_course_credits cb.credits p2),
                                      used :=
                                        insert i2
                                          (insert i1 (⟨0, [], ∅⟩ : GEState).used) } :=
  (C3_sequential_pair_semantics
    [⟨"890-103", "E2", "A", 2⟩, ⟨"890-104", "E3", "A", 2⟩] ⟨0, [], ∅⟩
    ⟨6, "English", 6, none,
      some [⟨"890-102", "E1", 2⟩, ⟨"890-103", "E2", 2⟩, ⟨"890-104", "E3", 2⟩],
      some "choose_sequential_pair",
      some [["890-102", "890-103"], ["890-103", "890-104"]]⟩
    [⟨"890-102", "E1", 2⟩, ⟨"890-103", "E2", 2⟩, ⟨"890-104", "E3", 2⟩]
    [["890-102", "890-103"], ["890-103", "890-104"]]
    rfl rfl rfl).2
    [["890-102", "890-103"]] [] "890-103" "890-104" rfl
    (by decide) (by decide)

/-! ## Empty requirement groups (C8) -/

/-- Counterexample to C8 as stated: a choose-all strand with an empty course
list yields no missing entry at all (and no credit), so the engine silently
treats the empty group as satisfied instead of automatically unsatisfiable. -/
theorem C8_empty_choose_all_counterexample :
    emptyChooseAllGenEd.strands.map GenEdStrand.courses = [some []] ∧
    audit_gen_ed [] emptyChooseAllGenEd = (0, [], ∅) := by
  constructor
  · rfl
  · have h2 : genEdElectivesPhase [] emptyChooseAllGenEd = (⟨0, [], ∅⟩, 0) := rfl
    have h3 : emptyChooseAllGenEd.electives.total_required_credits = 0 := rfl
    have h4 : emptyChooseAllGenEd.total_required_credits = 0 := rfl
    simp [audit_gen_ed, h2, h3, h4]

/-- C8 (amended): an empty ChooseOne strand list, an empty capstone option
list, and an empty sub-group course list with positive required credits are
each reported missing (automatically unsatisfiable) and cause no arithmetic
fault; but an empty ChooseAll course list produces no missing entry and no
credit — that group is silently satisfied. -/
theorem C8_empty_group_handling (courses : List ParsedCourse) :
    (∀ (s : GEState) (strand : GenEdStrand),
      strand.selection_rule = some "choose_one" → strand.courses = some [] →
      auditStrand courses s strand =
        { s with missing := s.missing ++
            [⟨"General Education", strand.name ++ ": choose 1 ()"⟩] }) ∧
    (∀ m : MajorCurriculum, m.capstone.options = [] →
      (⟨"Capstone", "Choose 1: "⟩ : MissingCourse) ∈ (audit_major courses m).2.2.1) ∧
    (∀ (nm : String) (s : GEState) (sg : GenEdSubGroup), sg.courses = [] →
      0 < sg.required_credits →
      auditSubGroup courses nm s sg =
        { s with missing := s.missing ++
            [⟨"General Education",
              nm ++ " > " ++ sg.name ++ ": missing " ++
                fmtDec1 sg.required_credits ++ " credits (options: )"⟩] }) ∧
    (∀ (s : GEState) (strand : GenEdStrand),
      (strand.selection_rule = none ∨ strand.selection_rule = some "choose_all") →
      strand.courses = some [] →
      auditStrand courses s strand = s) := by
  refine ⟨?_, ?_, ?_, ?_⟩
  · intro s strand hrule hcs
    have hdisp : auditStrand courses s strand = auditStrandChooseOne courses s strand := by
      simp [auditStrand, hrule]
    rw [hdisp]
    simp only [auditStrandChooseOne, hcs, chooseOneFind]
    have hdesc : strand.name ++ ": choose 1 (" ++
        String.intercalate " OR "
          (([] : List GenEdCourse).map fun c => c.code ++ " - " ++ c.name) ++ ")" =
        strand.name ++ ": choose 1 ()" := by
      have h1 : String.intercalate " OR "
          (([] : List GenEdCourse).map fun c => c.code ++ " - " ++ c.name) = "" := rfl
      rw [h1, String.append_empty, String.append_assoc]
      rfl
    rw [hdesc]
  · intro m hopt
    rw [audit_major_missing_eq]
    refine List.mem_append_left _ ?_
    rw [majorPreElectives, hopt]
    simp only [capstoneFind]
    refine List.mem_append.2 (Or.inr ?_)
    simp only [List.map_nil, List.mem_singleton]
    have hint : String.intercalate " OR " ([] : List String) = "" := rfl
    rw [hint, String.append_empty]
  · intro nm s sg hcs hpos
    simp only [auditSubGroup, hcs, auditSubGroupCourses]
    rw [if_pos (by simpa using hpos)]
    have hdesc : nm ++ " > " ++ sg.name ++ ": missing " ++
        fmtDec1 (sg.required_credits - 0) ++ " credits (options: " ++
        String.intercalate " OR "
          (([] : List GenEdCourse).map fun c => c.code ++ " - " ++ c.name) ++ ")" =
        nm ++ " > " ++ sg.name ++ ": missing " ++
          fmtDec1 sg.required_credits ++ " credits (options: )" := by
      have h1 : String.intercalate " OR "
          (([] : List GenEdCourse).map fun c => c.code ++ " - " ++ c.name) = "" := rfl
      rw [h1, String.append_empty, sub_zero, String.append_assoc]
      rfl
    rw [hdesc]
  · intro s strand hrule hcs
    have hdisp : auditStrand courses s strand = auditStrandChooseAll courses s strand := by
      rcases hrule with h | h <;> simp [auditStrand, h]
    rw [hdisp]
    simp only [auditStrandChooseAll, hcs, auditChooseAllCourses]

/-- Witness for C8 (amended): the empty choose-all strand is returned
unchanged, and an empty choose-one strand pushes its missing entry. -/
theorem C8_empty_group_handling_witness :
    auditStrand [] ⟨0, [], ∅⟩
        ⟨1, "Empty Strand", 3, none, some [], some "choose_all", none⟩ =
      (⟨0, [], ∅⟩ : GEState) ∧
    auditStrand [] ⟨0, [], ∅⟩
        ⟨1, "Pick One", 3, none, some [], some "choose_one", none⟩ =
      { (⟨0, [], ∅⟩ : GEState) with missing := ([] : List MissingCourse) ++
          [⟨"General Education", "Pick One" ++ ": choose 1 ()"⟩] } :=
  ⟨(C8_empty_group_handling []).2.2.2 ⟨0, [], ∅⟩
      ⟨1, "Empty Strand", 3, none, some [], some "choose_all", none⟩
      (Or.inr rfl) rfl,
   (C8_empty_group_handling []).1 ⟨0, [], ∅⟩
      ⟨1, "Pick One", 3, none, some [], some "choose_one", none⟩ rfl rfl⟩

end CourseAudit
